import Mathlib

/-!
Verification development for the work-record repository
(`src/streamlit_app.py`, `src/sync_server.py`).

The work-time state machine lives in the JavaScript embedded in
`streamlit_app.py` (the `USER_ORIGINAL_HTML_UNUSED` template, lines
914-1161).  It mutates a single `state` object; we embed it as pure
functions on a `WorkState` record.  Conventions of the embedding:

* JS `Date.now()` values (milliseconds) are `Int` parameters (`nowMs`);
  display strings produced by `getFullTimestamp()` / `getNowStr()` /
  `toLocaleDateString()` are `String` parameters.  No monotonicity of
  the clock is assumed anywhere (the code itself never assumes it).
* JS numbers that hold accumulated seconds are embedded as `ℚ`
  (the code divides millisecond differences by 1000, which is exact in
  every case the claims touch; float rounding is not modelled).
* A `HistoryEntry` is open when its `end` field is `null`; we model the
  `end` display string as `Option String` (`none` = `null`).
* Where the JS would throw a `TypeError` before mutating anything
  (looking up a task id that does not exist, or reading the last
  solution of a task that has none), the embedding returns the state
  unchanged; tasks without solutions never arise (every task is created
  with one solution and solutions are only appended).
-/

namespace WR

/-- List helper: apply `f` to the last element, if any (models JS code
that reads and mutates `xs[xs.length - 1]`). -/
def updateLast {α : Type _} (f : α → α) : List α → List α
  | [] => []
  | [x] => [f x]
  | x :: y :: xs => x :: updateLast f (y :: xs)

/-- List helper: apply `f` to the first element satisfying `p`, if any
(models mutation of the object returned by `Array.prototype.find`). -/
def updateFirst {α : Type _} (p : α → Bool) (f : α → α) : List α → List α
  | [] => []
  | x :: xs => if p x then f x :: xs else x :: updateFirst p f xs

/-- List helper: split a list at the first element satisfying `p`
(models `findIndex` followed by `splice(idx, 1)`). -/
def splitFirst {α : Type _} (p : α → Bool) : List α → Option (List α × α × List α)
  | [] => none
  | x :: xs =>
    if p x then some ([], x, xs)
    else (splitFirst p xs).map (fun r => (x :: r.1, r.2.1, r.2.2))

/-- One start/stop record, JS object `{ start, end, startMs, duration }`
pushed by `startTaskTimer` / `toggleMeeting` / `toggleRest`.  `endStr`
models the JS `end` field (`none` = `null` = still open). -/
structure HistoryEntry where
  startStr : String
  endStr : Option String
  startMs : Int
  duration : Option ℚ
deriving DecidableEq, Repr

/-- A phase of a task, JS object `{ text, seconds, history, researchNote }`. -/
structure Solution where
  text : String
  seconds : ℚ
  history : List HistoryEntry
  researchNote : String
deriving DecidableEq, Repr

/-- A task, as created by `confirmAddTask` in the JS. -/
structure Task where
  id : Int
  createdAt : String
  completedAt : Option String
  name : String
  estTime : String
  spentSeconds : ℚ
  lastStartTimestamp : Option Int
  solutions : List Solution
  dev : String
  rem : String
  completed : Bool
  deviationLabel : String
  deviationClass : String
deriving DecidableEq, Repr

/-- One clock-in/clock-out cycle summary, pushed by `toggleClock`. -/
structure AttendanceRecord where
  date : String
  clockIn : Option String
  clockOut : String
  clockInFullMs : Option Int
  clockOutFullMs : Int
  taskTotal : ℚ
  meeting : ℚ
  rest : ℚ
  totalClocked : ℚ
deriving DecidableEq, Repr

/-- The root `state` object of the JS state machine. -/
structure WorkState where
  tasks : List Task
  attendance : List AttendanceRecord
  activeTaskId : Option Int
  isClockedIn : Bool
  isMeeting : Bool
  isResting : Bool
  meetingSeconds : ℚ
  restSeconds : ℚ
  meetingHistory : List HistoryEntry
  restHistory : List HistoryEntry
  clockInTime : Option String
  clockInFullMs : Option Int
  userName : String
  lastMeetingTimestamp : Option Int
  lastRestTimestamp : Option Int
deriving DecidableEq, Repr

/-- The initial JS `state` literal (the fallback when nothing is in
`localStorage`); `lastMeetingTimestamp`, `lastRestTimestamp` are absent
(`undefined`) there, i.e. `none`. -/
def defaultState : WorkState where
  tasks := []
  attendance := []
  activeTaskId := none
  isClockedIn := false
  isMeeting := false
  isResting := false
  meetingSeconds := 0
  restSeconds := 0
  meetingHistory := []
  restHistory := []
  clockInTime := none
  clockInFullMs := none
  userName := ""
  lastMeetingTimestamp := none
  lastRestTimestamp := none

/-- Whitespace trimming (JS `String.prototype.trim()` and Python
`str.strip()`), modelled over the character list so that it computes by
kernel reduction. -/
def strTrim (s : String) : String :=
  String.mk (((s.toList.dropWhile Char.isWhitespace).reverse.dropWhile Char.isWhitespace).reverse)

/-- JS `pad(n)`: two-digit zero padding. -/
def pad2 (n : Nat) : String :=
  if n < 10 then "0" ++ toString n else toString n

/-- JS `formatTime(s)`: `Math.max(0, Math.floor(s))` rendered `HH:MM:SS`. -/
def jsFormatTime (q : ℚ) : String :=
  let s : Nat := (max 0 ⌊q⌋).toNat
  pad2 (s / 3600) ++ ":" ++ pad2 ((s % 3600) / 60) ++ ":" ++ pad2 (s % 60)

/-- JS `formatTimeCSV(s)`: like `formatTime` but `HH:MM`. -/
def jsFormatTimeCSV (q : ℚ) : String :=
  let s : Nat := (max 0 ⌊q⌋).toNat
  pad2 (s / 3600) ++ ":" ++ pad2 ((s % 3600) / 60)

/-- The elapsed-seconds value the JS computes:
`(now - startTimestamp) / 1000`.  There is no `Math.max(0, ...)` here. -/
def elapsedSec (nowMs startTs : Int) : ℚ := ((nowMs : ℚ) - (startTs : ℚ)) / 1000

/-- Closing of the current open entry inside `stopCurrentTaskTimer`
(`if (curH && !curH.end) { curH.end = ...; curH.duration = elapsed }`). -/
def closeEntry (nowStr : String) (elapsed : ℚ) (h : HistoryEntry) : HistoryEntry :=
  if h.endStr.isNone then { h with endStr := some nowStr, duration := some elapsed } else h

/-- Unconditional closing of the last entry, as done by `endMeeting` /
`endRest` (`history[len-1].end = ...; history[len-1].duration = dur`). -/
def closeEntryAlways (nowStr : String) (dur : ℚ) (h : HistoryEntry) : HistoryEntry :=
  { h with endStr := some nowStr, duration := some dur }

/-- The per-task mutation performed by `stopCurrentTaskTimer` on the
active task: accumulate into `spentSeconds` and the last solution's
`seconds`, close the open entry of the last solution, clear the
timestamp. -/
def stopUpdTask (nowStr : String) (elapsed : ℚ) (tk : Task) : Task :=
  { tk with
    spentSeconds := tk.spentSeconds + elapsed
    solutions := updateLast (fun so =>
      { so with seconds := so.seconds + elapsed
              , history := updateLast (closeEntry nowStr elapsed) so.history }) tk.solutions
    lastStartTimestamp := none }

/-- The open entry pushed by `startTaskTimer` / `toggleMeeting` /
`toggleRest`: `{ start, end: null, startMs }` (no `duration` key). -/
def newHistoryEntry (nowMs : Int) (nowStr : String) : HistoryEntry :=
  { startStr := nowStr, endStr := none, startMs := nowMs, duration := none }

/-- The per-task mutation performed by `startTaskTimer`: set the
timestamp and push a fresh open entry onto the last solution. -/
def startUpdTask (nowMs : Int) (nowStr : String) (tk : Task) : Task :=
  { tk with lastStartTimestamp := some nowMs
          , solutions := updateLast
              (fun so => { so with history := so.history ++ [newHistoryEntry nowMs nowStr] })
              tk.solutions }

/-- The task list after `stopCurrentTaskTimer`: unchanged unless a task
is active (`state.activeTaskId`), found (`tasks.find`), and has a
running timer (`lastStartTimestamp`).  Both guards are JS truthiness
tests (`if (!state.activeTaskId) return` and
`if (task && task.lastStartTimestamp)`), so the number 0 — a falsy id
or a falsy start instant — also means "no timer" and the function is a
no-op. -/
def stopTasks (s : WorkState) (nowMs : Int) (nowStr : String) : List Task :=
  match s.activeTaskId with
  | none => s.tasks
  | some aid =>
    if aid = 0 then s.tasks
    else
      match s.tasks.find? (fun t => t.id == aid) with
      | none => s.tasks
      | some t =>
        match t.lastStartTimestamp with
        | none => s.tasks
        | some startTs =>
          if startTs = 0 then s.tasks
          else
            updateFirst (fun tk => tk.id == aid)
              (stopUpdTask nowStr (elapsedSec nowMs startTs)) s.tasks

/-- JS `stopCurrentTaskTimer()`: if a task is active and has a running
timer, add the elapsed seconds to its `spentSeconds` and to the last
solution's `seconds`, close the open entry of the last solution's
history (setting `end` and `duration`), and clear `lastStartTimestamp`.
Only the `tasks` array is touched. -/
def stopCurrentTaskTimer (s : WorkState) (nowMs : Int) (nowStr : String) : WorkState :=
  { s with tasks := stopTasks s nowMs nowStr }

/-- JS `startTaskTimer(id)`: set the task's `lastStartTimestamp`, push a
fresh open `HistoryEntry` onto its last solution, set `activeTaskId`.
If the id does not exist the JS throws before mutating anything. -/
def startTaskTimer (s : WorkState) (id : Int) (nowMs : Int) (nowStr : String) : WorkState :=
  match s.tasks.find? (fun t => t.id == id) with
  | none => s
  | some _ =>
    { s with tasks := updateFirst (fun tk => tk.id == id) (startUpdTask nowMs nowStr) s.tasks
           , activeTaskId := some id }

/-- JS `endMeeting()`: if a meeting timer is running, accumulate its
duration, close the last `meetingHistory` entry, clear the timestamp;
always clear `isMeeting`.  The guard `if (state.lastMeetingTimestamp)`
is a JS truthiness test: a stored instant of 0 is falsy, so nothing is
closed and the timestamp stays as it is. -/
def endMeeting (s : WorkState) (nowMs : Int) (nowStr : String) : WorkState :=
  match s.lastMeetingTimestamp with
  | some ts =>
    if ts = 0 then { s with isMeeting := false }
    else
      { s with meetingSeconds := s.meetingSeconds + elapsedSec nowMs ts
             , meetingHistory :=
                 updateLast (closeEntryAlways nowStr (elapsedSec nowMs ts)) s.meetingHistory
             , lastMeetingTimestamp := none
             , isMeeting := false }
  | none => { s with isMeeting := false }

/-- JS `endRest()`: mirror image of `endMeeting` for the rest timer
(including the truthiness guard `if (state.lastRestTimestamp)`). -/
def endRest (s : WorkState) (nowMs : Int) (nowStr : String) : WorkState :=
  match s.lastRestTimestamp with
  | some ts =>
    if ts = 0 then { s with isResting := false }
    else
      { s with restSeconds := s.restSeconds + elapsedSec nowMs ts
             , restHistory :=
                 updateLast (closeEntryAlways nowStr (elapsedSec nowMs ts)) s.restHistory
             , lastRestTimestamp := none
             , isResting := false }
  | none => { s with isResting := false }

/-- Sum of `spentSeconds` over a task list: JS
`state.tasks.reduce((sum, t) => sum + t.spentSeconds, 0)`. -/
def sumSpent (ts : List Task) : ℚ :=
  ts.foldl (fun acc t => acc + t.spentSeconds) 0

/-- The first three statements of the clock-out branch of
`toggleClock()`: `stopCurrentTaskTimer(); if(state.isMeeting)
endMeeting(); if(state.isResting) endRest();`. -/
def clockOutPrep (s : WorkState) (nowMs : Int) (nowStr : String) : WorkState :=
  let s1 := stopCurrentTaskTimer s nowMs nowStr
  let s2 := if s1.isMeeting then endMeeting s1 nowMs nowStr else s1
  if s2.isResting then endRest s2 nowMs nowStr else s2

/-- JS `toggleClock()` (with the clock-out `confirm()` answered yes).
Clock-out: stop any running task/meeting/rest timer, append one
`AttendanceRecord`, clear `activeTaskId`, clear `isClockedIn`.
Clock-in: set `isClockedIn` and the clock-in instants and reset the
meeting/rest accumulators and histories (tasks untouched).
`dateStr` models `new Date().toLocaleDateString()`. -/
def toggleClock (s : WorkState) (nowMs : Int) (nowStr : String) (dateStr : String) : WorkState :=
  if s.isClockedIn then
    let s3 := clockOutPrep s nowMs nowStr
    let totalTaskSec := sumSpent s3.tasks
    let totalClockedSec : ℚ := ((nowMs : ℚ) - ((s3.clockInFullMs.getD 0 : Int) : ℚ)) / 1000
    let att : AttendanceRecord :=
      { date := dateStr
      , clockIn := s3.clockInTime
      , clockOut := nowStr
      , clockInFullMs := s3.clockInFullMs
      , clockOutFullMs := nowMs
      , taskTotal := totalTaskSec
      , meeting := s3.meetingSeconds
      , rest := s3.restSeconds
      , totalClocked := totalClockedSec }
    { s3 with attendance := s3.attendance ++ [att]
            , activeTaskId := none
            , isClockedIn := false }
  else
    { s with isClockedIn := true
           , clockInTime := some nowStr
           , clockInFullMs := some nowMs
           , meetingSeconds := 0
           , restSeconds := 0
           , meetingHistory := []
           , restHistory := [] }

/-- JS `toggleMeeting()`: no-op unless clocked in; starting a meeting
stops the active task, clears `activeTaskId`, ends a rest if open, and
pushes an open entry; a second toggle calls `endMeeting`. -/
def toggleMeeting (s : WorkState) (nowMs : Int) (nowStr : String) : WorkState :=
  if !s.isClockedIn then s
  else if !s.isMeeting then
    let s1 := stopCurrentTaskTimer s nowMs nowStr
    let s2 := { s1 with activeTaskId := none }
    let s3 := if s2.isResting then endRest s2 nowMs nowStr else s2
    { s3 with isMeeting := true
            , lastMeetingTimestamp := some nowMs
            , meetingHistory := s3.meetingHistory ++ [newHistoryEntry nowMs nowStr] }
  else endMeeting s nowMs nowStr

/-- JS `toggleRest()`: mirror image of `toggleMeeting`. -/
def toggleRest (s : WorkState) (nowMs : Int) (nowStr : String) : WorkState :=
  if !s.isClockedIn then s
  else if !s.isResting then
    let s1 := stopCurrentTaskTimer s nowMs nowStr
    let s2 := { s1 with activeTaskId := none }
    let s3 := if s2.isMeeting then endMeeting s2 nowMs nowStr else s2
    { s3 with isResting := true
            , lastRestTimestamp := some nowMs
            , restHistory := s3.restHistory ++ [newHistoryEntry nowMs nowStr] }
  else endRest s nowMs nowStr

/-- JS `toggleTask(id)`: no-op unless clocked in; ends meeting/rest if
open, then stops the task if it is the active one, otherwise stops the
previously active task (if any) and starts this one. -/
def toggleTask (s : WorkState) (id : Int) (nowMs : Int) (nowStr : String) : WorkState :=
  if !s.isClockedIn then s
  else
    let s1 := if s.isMeeting then endMeeting s nowMs nowStr else s
    let s2 := if s1.isResting then endRest s1 nowMs nowStr else s1
    if s2.activeTaskId == some id then
      let s3 := stopCurrentTaskTimer s2 nowMs nowStr
      { s3 with activeTaskId := none }
    else
      let s3 := if s2.activeTaskId.isSome then stopCurrentTaskTimer s2 nowMs nowStr else s2
      startTaskTimer s3 id nowMs nowStr

/-- JS `addSolu(id)`: validation failure (alert, state unchanged) when
the current last solution's `researchNote` is blank; otherwise stop the
task's timer if it is running, append a fresh solution, and restart the
timer under the new phase. -/
def addSolu (s : WorkState) (id : Int) (nowMs : Int) (nowStr : String) : WorkState :=
  match s.tasks.find? (fun t => t.id == id) with
  | none => s
  | some t =>
    match t.solutions.getLast? with
    | none => s
    | some lastSolu =>
      if strTrim lastSolu.researchNote = "" then s
      else
        let isRunning := s.activeTaskId == some id
        let s1 := if isRunning then stopCurrentTaskTimer s nowMs nowStr else s
        let newSolu : Solution :=
          { text := "新阶段" ++ toString (t.solutions.length + 1)
          , seconds := 0, history := [], researchNote := "" }
        let pushSolu := fun (tk : Task) => { tk with solutions := tk.solutions ++ [newSolu] }
        let s2 := { s1 with tasks := updateFirst (fun tk => tk.id == id) pushSolu s1.tasks }
        if isRunning then startTaskTimer s2 id nowMs nowStr else s2

/-- Outcome reported by `completeTask`: the two alert paths, the paths
where the JS would throw a `TypeError` before mutating anything, and
success. -/
inductive CompleteOutcome where
  | missingDev
  | missingResearch
  | jsError
  | completed
deriving DecidableEq, Repr

/-- Result of `completeTask`: new state plus the reported outcome. -/
structure CompleteResult where
  state : WorkState
  outcome : CompleteOutcome
deriving DecidableEq, Repr

/-- Deviation label and class computed by `completeTask` from
`parseFloat(t.estTime)` and `t.spentSeconds`.  `estParse` models the JS
`parseFloat`; when it yields no number the JS arithmetic produces `NaN`,
`NaN > 0` is false, and the label renders with `NaN` fields. -/
def deviationOf (estParse : String → Option ℚ) (estTime : String) (spent : ℚ) : String × String :=
  match estParse estTime with
  | some estH =>
    let diff := spent - estH * 3600
    if diff > 0 then ("延时" ++ jsFormatTime diff, "info-delayed")
    else ("提前" ++ jsFormatTime |diff|, "info-early")
  | none => ("提前NaN:NaN:NaN", "info-early")

/-- JS `completeTask(id)`: alert (state unchanged) when the deliverable
note `dev` or the last solution's `researchNote` is blank; otherwise
stop the currently running task timer (whichever task that is), clear
`activeTaskId` if it equals `id`, mark the task completed with a
deviation label, and move it to the end of the task list. -/
def completeTask (estParse : String → Option ℚ) (s : WorkState) (id : Int)
    (nowMs : Int) (nowStr : String) (nowDateStr : String) : CompleteResult :=
  match splitFirst (fun t => t.id == id) s.tasks with
  | none => ⟨s, .jsError⟩
  | some (_, t, _) =>
    if strTrim t.dev = "" then ⟨s, .missingDev⟩
    else
      match t.solutions.getLast? with
      | none => ⟨s, .jsError⟩
      | some lastSolu =>
        if strTrim lastSolu.researchNote = "" then ⟨s, .missingResearch⟩
        else
          let s1 := stopCurrentTaskTimer s nowMs nowStr
          let s2 := if s1.activeTaskId == some id then { s1 with activeTaskId := none } else s1
          match splitFirst (fun t => t.id == id) s2.tasks with
          | none => ⟨s2, .jsError⟩
          | some (pre2, t2, post2) =>
            let dv := deviationOf estParse t2.estTime t2.spentSeconds
            let t3 := { t2 with completed := true
                              , completedAt := some nowDateStr
                              , deviationLabel := dv.1
                              , deviationClass := dv.2 }
            ⟨{ s2 with tasks := pre2 ++ post2 ++ [t3] }, .completed⟩

/-- JS `reopen(id)`: clear the completed flag and date and move the task
to the front of the list. -/
def reopen (s : WorkState) (id : Int) : WorkState :=
  match splitFirst (fun t => t.id == id) s.tasks with
  | none => s
  | some (pre, t, post) =>
    let t2 := { t with completed := false, completedAt := none }
    { s with tasks := t2 :: (pre ++ post) }

/-- JS `confirmAddTask()`: alert (state unchanged) when the name or the
estimate input is empty; otherwise unshift a fresh task with id
`Date.now()` and a single initial solution with empty `researchNote`.
No parsing or positivity check is performed on the estimate string. -/
def confirmAddTask (s : WorkState) (name estStr : String) (nowMs : Int) (nowStr : String) :
    WorkState :=
  if name = "" ∨ estStr = "" then s
  else
    let newTask : Task :=
      { id := nowMs, createdAt := nowStr, completedAt := none, name := name, estTime := estStr
      , spentSeconds := 0, lastStartTimestamp := none
      , solutions := [{ text := "初始阶段", seconds := 0, history := [], researchNote := "" }]
      , dev := "", rem := "", completed := false, deviationLabel := "", deviationClass := "" }
    { s with tasks := newTask :: s.tasks }

/-! Model of `src/sync_server.py`.  JSON values decoded by `json.loads`
are embedded as the `Json` inductive; the parse itself (a stdlib call)
is modelled by handing `do_POST` the parse outcome (`none` = the body
was not valid JSON).  The SQLite table `user_data (username TEXT
PRIMARY KEY, state_json TEXT, last_updated TIMESTAMP)` is embedded as a
list of rows, and `INSERT OR REPLACE` keyed on the primary key as
delete-then-append. -/

/-- A decoded JSON value (the result of `json.loads`).  An object is a
field list; `json.loads` produces Python dicts, where a duplicated key
keeps its last occurrence — `pyDictGet` looks up accordingly. -/
inductive Json where
  | null
  | bool (b : Bool)
  | num (q : ℚ)
  | str (s : String)
  | arr (items : List Json)
  | obj (fields : List (String × Json))

/-- Minimal JSON string escaping used by the serializer model. -/
def escapeJson (s : String) : String :=
  String.join (s.toList.map (fun c =>
    if c = '"' then "\\\"" else if c = '\\' then "\\\\"
    else if c = '\n' then "\\n" else if c = '\t' then "\\t"
    else if c = '\r' then "\\r" else String.singleton c))

mutual

/-- Model of `json.dumps(state, ensure_ascii=False)` (a stdlib call):
a deterministic canonical serialization of a `Json` value.  The exact
rendering of numbers is simplified; the claims depend only on `dumps`
being a fixed function of the value. -/
def Json.dumps : Json → String
  | .null => "null"
  | .bool true => "true"
  | .bool false => "false"
  | .num q => if q.den = 1 then toString q.num else toString q
  | .str s => "\"" ++ escapeJson s ++ "\""
  | .arr items => "[" ++ Json.dumpsList items ++ "]"
  | .obj fields => "\x7b" ++ Json.dumpsObj fields ++ "\x7d"

/-- Serialize the elements of a JSON array, comma separated. -/
def Json.dumpsList : List Json → String
  | [] => ""
  | [j] => Json.dumps j
  | j :: j2 :: rest => Json.dumps j ++ ", " ++ Json.dumpsList (j2 :: rest)

/-- Serialize the fields of a JSON object, comma separated. -/
def Json.dumpsObj : List (String × Json) → String
  | [] => ""
  | [(k, v)] => "\"" ++ escapeJson k ++ "\": " ++ Json.dumps v
  | (k, v) :: kv2 :: rest =>
    "\"" ++ escapeJson k ++ "\": " ++ Json.dumps v ++ ", " ++ Json.dumpsObj (kv2 :: rest)

end

/-- Python `payload.get(key)` on the dict decoded from a JSON object:
the last binding of a duplicated key wins. -/
def pyDictGet (fields : List (String × Json)) (key : String) : Option Json :=
  (fields.reverse.find? (fun p => p.1 == key)).map (fun p => p.2)

/-- One row of the `user_data` table: username, state_json, last_updated. -/
abbrev SyncStore := List (String × String × String)

/-- SQLite `INSERT OR REPLACE INTO user_data VALUES (?, ?, ?)` with
`username` the primary key: any existing row for the username is
replaced. -/
def upsertRow (store : SyncStore) (u json ts : String) : SyncStore :=
  store.filter (fun r => r.1 != u) ++ [(u, json, ts)]

/-- Python `self.path.split("?", 1)[0]`. -/
def pathPart (p : String) : String := String.mk (p.toList.takeWhile (fun c => c != '?'))

/-- Result of one `do_POST` call: the HTTP response (status code and
body; `none` models an unhandled exception, after which no response is
written) paired with the resulting store. -/
structure PostResult where
  response : Option (Nat × String)
  store : SyncStore
deriving DecidableEq, Repr

/-- Model of `SyncHandler.do_POST`.  `dbOk` is whether the storage
write succeeds (the `sqlite3` calls are external); `nowTs` models
`datetime.now()`; `parsed` is the `json.loads` outcome.  The body text
of the 500 response is the exception message; it is modelled as a fixed
string.  Note: on a valid-JSON body that is not an object,
`payload.get` raises `AttributeError` and no response is sent. -/
def do_POST (dbOk : Bool) (nowTs : String) (path : String) (parsed : Option Json)
    (store : SyncStore) : PostResult :=
  if pathPart path ≠ "/sync" then ⟨some (404, "not found"), store⟩
  else
    match parsed with
    | none => ⟨some (400, "invalid json"), store⟩
    | some (Json.obj fields) =>
      match pyDictGet fields "username" with
      | some (Json.str u) =>
        if u = "" then ⟨some (400, "missing username"), store⟩
        else
          match pyDictGet fields "state" with
          | some (Json.obj stFields) =>
            if dbOk then
              ⟨some (200, "ok"), upsertRow store u (Json.dumps (Json.obj stFields)) nowTs⟩
            else ⟨some (500, "storage error"), store⟩
          | _ => ⟨some (400, "missing state"), store⟩
      | _ => ⟨some (400, "missing username"), store⟩
    | some _ => ⟨none, store⟩

/-! Model of the report builders in `_build_admin_tables`
(`src/streamlit_app.py`).  They read the JSON snapshot of the state;
we let them read the `WorkState` record directly. -/

/-- Python `_format_hhmm`: `int(max(0, seconds))` rendered `HH:MM`. -/
def formatHHMM (q : ℚ) : String :=
  let s : Nat := (max 0 ⌊q⌋).toNat
  pad2 (s / 3600) ++ ":" ++ pad2 ((s % 3600) / 60)

/-- One row of 表格二 (work-hours summary). -/
structure AttRow where
  dateS : String
  clockInS : String
  clockOutS : String
  taskS : String
  meetingS : String
  restS : String
  otherS : String
deriving DecidableEq, Repr

/-- Python `x or default` on an optional display string. -/
def pyOr (o : Option String) (d : String) : String :=
  match o with
  | some s => if s = "" then d else s
  | none => d

/-- The attendance row built by `_build_admin_tables` (lines 214-231):
`other = max(0.0, total_clocked - task_total - meeting - rest)`,
all four durations rendered with `_format_hhmm`. -/
def attRow (a : AttendanceRecord) : AttRow :=
  let other : ℚ := max 0 (a.totalClocked - a.taskTotal - a.meeting - a.rest)
  { dateS := a.date
  , clockInS := pyOr a.clockIn ""
  , clockOutS := pyOr (some a.clockOut) ""
  , taskS := formatHHMM a.taskTotal
  , meetingS := formatHHMM a.meeting
  , restS := formatHHMM a.rest
  , otherS := formatHHMM other }

/-- 表格二 is one `attRow` per attendance record, in order. -/
def buildAttendanceRows (s : WorkState) : List AttRow := s.attendance.map attRow

/-- One row of 表格三 (the audit log), keyed by the start instant `ms`
(the Python code sorts on it and then drops it). -/
structure LogRow where
  ms : Int
  act : String
  objS : String
  startS : String
  endS : String
  durS : String
  note : String
deriving DecidableEq, Repr

/-- Python truthiness of an optional display string (`not end`). -/
def strFalsy (o : Option String) : Bool :=
  match o with
  | none => true
  | some s => s == ""

/-- Python `end or "进行中"`. -/
def pyEndDisplay (o : Option String) : String := pyOr o "进行中"

/-- Python duration display: `_format_hhmm(dur) if dur and dur > 0 else "--"`. -/
def pyDurDisplay (dur : Option ℚ) : String :=
  match dur with
  | some d => if d > 0 then formatHHMM d else "--"
  | none => "--"

/-- Python live-duration fill-in: a stored `duration` wins; otherwise,
when `cond` holds and the entry has no end, `max(0, (now - start)/1000)`. -/
def pyLiveDur (cond : Bool) (h : HistoryEntry) (nowMs : Int) : Option ℚ :=
  match h.duration with
  | some d => some d
  | none =>
    if cond ∧ strFalsy h.endStr then some (max 0 (((nowMs : ℚ) - (h.startMs : ℚ)) / 1000))
    else none

/-- The synthetic clock-in marker row (`if state.get("clockInFullMs")`,
an integer truthiness test). -/
def pyClockInRows (s : WorkState) : List LogRow :=
  match s.clockInFullMs with
  | some ms =>
    if ms ≠ 0 then [⟨ms, "【上班打卡】", "--", pyOr s.clockInTime "--", "--", "--", ""⟩] else []
  | none => []

/-- One audit row per task-phase history entry; the live rule applies to
the entry of the active task with no end. -/
def pyTaskRows (s : WorkState) (nowMs : Int) : List LogRow :=
  s.tasks.flatMap (fun t =>
    t.solutions.flatMap (fun so =>
      so.history.map (fun h =>
        let dur := pyLiveDur (s.activeTaskId == some t.id) h nowMs
        ⟨h.startMs, "任务执行", t.name ++ "-" ++ so.text, h.startStr,
          pyEndDisplay h.endStr, pyDurDisplay dur, strTrim so.researchNote⟩)))

/-- One audit row per meeting history entry. -/
def pyMeetingRows (s : WorkState) (nowMs : Int) : List LogRow :=
  s.meetingHistory.map (fun h =>
    let dur := pyLiveDur s.isMeeting h nowMs
    ⟨h.startMs, "会议沟通", "内部沟通", h.startStr, pyEndDisplay h.endStr, pyDurDisplay dur, ""⟩)

/-- One audit row per rest history entry. -/
def pyRestRows (s : WorkState) (nowMs : Int) : List LogRow :=
  s.restHistory.map (fun h =>
    let dur := pyLiveDur s.isResting h nowMs
    ⟨h.startMs, "休息午休", "--", h.startStr, pyEndDisplay h.endStr, pyDurDisplay dur, ""⟩)

/-- The synthetic clock-out marker row, taken from the last attendance
record when currently clocked out. -/
def pyClockOutRows (s : WorkState) : List LogRow :=
  if s.isClockedIn = false ∧ s.attendance ≠ [] then
    match s.attendance.getLast? with
    | some a =>
      if a.clockOutFullMs ≠ 0 then
        [⟨a.clockOutFullMs, "【下班打卡】", "--", pyOr (some a.clockOut) "--", "--", "--", ""⟩]
      else []
    | none => []
  else []

/-- The audit rows in insertion order, before sorting: clock-in marker,
then task rows, meeting rows, rest rows, clock-out marker. -/
def pyAuditRaw (s : WorkState) (nowMs : Int) : List LogRow :=
  pyClockInRows s ++ pyTaskRows s nowMs ++ pyMeetingRows s nowMs ++
    pyRestRows s nowMs ++ pyClockOutRows s

/-- Comparison by an integer key;  `sorted(logs, key=lambda x: x["ms"])`
sorts ascending by it. -/
def keyLE {α : Type _} (key : α → Int) (a b : α) : Prop := key a ≤ key b

instance {α : Type _} (key : α → Int) : DecidableRel (keyLE key) :=
  fun a b => inferInstanceAs (Decidable (key a ≤ key b))

instance {α : Type _} (key : α → Int) : IsTotal α (keyLE key) :=
  ⟨fun a b => Int.le_total (key a) (key b)⟩

instance {α : Type _} (key : α → Int) : IsTrans α (keyLE key) :=
  ⟨fun _ _ _ hab hbc => Int.le_trans hab hbc⟩

/-- 表格三 after `sorted(logs, key=lambda x: x.get("ms", 0))`.  Python's
`sorted` is a stable ascending sort; `List.insertionSort` with `keyLE`
is extensionally the same function (sortedness plus the stability
characterisation proved below determine the output uniquely). -/
def pyAuditLog (s : WorkState) (nowMs : Int) : List LogRow :=
  List.insertionSort (keyLE LogRow.ms) (pyAuditRaw s nowMs)

/-- One row of the JS `exportToCSV` audit section (表格三 of the CSV):
`{ms, act, obj, s, e, dur, note}`; `dur` is numeric there. -/
structure JsLogRow where
  ms : Int
  act : String
  objS : String
  startRaw : Option String
  endRaw : String
  dur : ℚ
  note : String
deriving DecidableEq, Repr

/-- JS `h.duration || fallback` (`0` and `null` are falsy). -/
def jsOrDur (d : Option ℚ) (fallback : ℚ) : ℚ :=
  match d with
  | some v => if v ≠ 0 then v else fallback
  | none => fallback

/-- JS export rows in push order: clock-in marker (always), task rows,
meeting rows, rest rows, clock-out marker when clocked out (no
truthiness test on `clockOutFullMs` here, unlike the Python builder). -/
def jsExportRaw (s : WorkState) (nowMs : Int) : List JsLogRow :=
  [⟨s.clockInFullMs.getD 0, "【上班打卡】", "--", s.clockInTime, "--", 0, ""⟩] ++
  s.tasks.flatMap (fun t =>
    t.solutions.flatMap (fun so =>
      so.history.map (fun h =>
        let fallback : ℚ :=
          if s.activeTaskId == some t.id ∧ strFalsy h.endStr then
            ((nowMs : ℚ) - (h.startMs : ℚ)) / 1000
          else 0
        ⟨h.startMs, "任务执行", t.name ++ "-" ++ so.text, some h.startStr,
          pyEndDisplay h.endStr, jsOrDur h.duration fallback, so.researchNote⟩))) ++
  s.meetingHistory.map (fun h =>
    let fallback : ℚ := if s.isMeeting then ((nowMs : ℚ) - (h.startMs : ℚ)) / 1000 else 0
    ⟨h.startMs, "会议沟通", "内部沟通", some h.startStr, pyEndDisplay h.endStr,
      jsOrDur h.duration fallback, ""⟩) ++
  s.restHistory.map (fun h =>
    let fallback : ℚ := if s.isResting then ((nowMs : ℚ) - (h.startMs : ℚ)) / 1000 else 0
    ⟨h.startMs, "休息午休", "--", some h.startStr, pyEndDisplay h.endStr,
      jsOrDur h.duration fallback, ""⟩) ++
  (if s.isClockedIn = false ∧ s.attendance ≠ [] then
    match s.attendance.getLast? with
    | some a => [⟨a.clockOutFullMs, "【下班打卡】", "--", some a.clockOut, "--", 0, ""⟩]
    | none => []
  else [])

/-- The JS export audit section after `logs.sort((a,b) => a.ms - b.ms)`
(a stable ascending sort per ES2019, embedded like `pyAuditLog`). -/
def jsExportLog (s : WorkState) (nowMs : Int) : List JsLogRow :=
  List.insertionSort (keyLE JsLogRow.ms) (jsExportRaw s nowMs)

/-! Open-entry counting and the state-machine reachability relation. -/

/-- An entry is open while its `end` field is still `null`. -/
def entryOpen (h : HistoryEntry) : Bool := h.endStr.isNone

/-- Number of open entries in one history list. -/
def histOpen (l : List HistoryEntry) : Nat := l.countP entryOpen

/-- Every entry of the history list is closed. -/
def allClosed (l : List HistoryEntry) : Prop := ∀ h ∈ l, entryOpen h = false

/-- The history list ends with its only open entry. -/
def openOnlyLast (l : List HistoryEntry) : Prop :=
  ∃ l' h, l = l' ++ [h] ∧ entryOpen h = true ∧ allClosed l'

/-- Number of open entries across all solutions of a task. -/
def taskOpen (t : Task) : Nat := (t.solutions.map (fun so => histOpen so.history)).sum

/-- Every history entry of every solution of the task is closed. -/
def taskClosed (t : Task) : Prop := ∀ so ∈ t.solutions, allClosed so.history

/-- The task's last solution ends with the task's only open entry. -/
def taskOpenLast (t : Task) : Prop :=
  ∃ pre so, t.solutions = pre ++ [so] ∧ openOnlyLast so.history ∧ ∀ x ∈ pre, allClosed x.history

/-- Every task in the list is fully closed. -/
def tasksClosed (ts : List Task) : Prop := ∀ t ∈ ts, taskClosed t

/-- Number of open entries across all tasks. -/
def tasksOpenCount (ts : List Task) : Nat := (ts.map taskOpen).sum

/-- Total number of open `HistoryEntry` objects in a `WorkState`:
task-phase histories plus meeting history plus rest history. -/
def totalOpen (s : WorkState) : Nat :=
  tasksOpenCount s.tasks + histOpen s.meetingHistory + histOpen s.restHistory

/-- The task list decomposes around the first task whose id is `aid`:
that task has a running timer with a truthy (nonzero) start instant and
carries the only open entry (at the end of its last solution); every
task before it has a different id, and every other task is fully
closed. -/
def activeSplit (aid : Int) (ts : List Task) : Prop :=
  ∃ pre t post, ts = pre ++ t :: post ∧ t.id = aid ∧
    (∃ ts0, t.lastStartTimestamp = some ts0 ∧ ts0 ≠ 0) ∧
    taskOpenLast t ∧ (∀ x ∈ pre, x.id ≠ aid) ∧ (∀ x ∈ pre, taskClosed x) ∧
    (∀ x ∈ post, taskClosed x)

/-- Inductive invariant of the JS state machine (established below for
all states reachable with fresh task ids and nonzero `Date.now()`
readings).  Task ids and stored timer instants are nonzero, so that the
JS truthiness guards of `stopCurrentTaskTimer` / `endMeeting` /
`endRest` see them as set. -/
structure Inv (s : WorkState) : Prop where
  solsNE : ∀ t ∈ s.tasks, t.solutions ≠ []
  idsNZ : ∀ t ∈ s.tasks, t.id ≠ 0
  meetOpen : s.isMeeting = true → openOnlyLast s.meetingHistory
  meetClosed : s.isMeeting = false → allClosed s.meetingHistory
  meetTs : s.isMeeting = s.lastMeetingTimestamp.isSome
  meetTsNZ : s.lastMeetingTimestamp ≠ some 0
  restOpen : s.isResting = true → openOnlyLast s.restHistory
  restClosed : s.isResting = false → allClosed s.restHistory
  restTs : s.isResting = s.lastRestTimestamp.isSome
  restTsNZ : s.lastRestTimestamp ≠ some 0
  clockedOut : s.isClockedIn = false →
    s.isMeeting = false ∧ s.isResting = false ∧ s.activeTaskId = none
  exclMeet : s.isMeeting = true → s.activeTaskId = none ∧ s.isResting = false
  exclRest : s.isResting = true → s.activeTaskId = none
  tasksGood : tasksClosed s.tasks ∨
    ∃ aid, s.activeTaskId = some aid ∧ aid ≠ 0 ∧ activeSplit aid s.tasks

/-- One user-visible operation of the state machine, with arbitrary
clock readings (the code never assumes `Date.now()` is monotone or
collision-free). -/
inductive Step : WorkState → WorkState → Prop where
  | clockOp (s : WorkState) (nowMs : Int) (nowStr dateStr : String) :
      Step s (toggleClock s nowMs nowStr dateStr)
  | meetOp (s : WorkState) (nowMs : Int) (nowStr : String) :
      Step s (toggleMeeting s nowMs nowStr)
  | restOp (s : WorkState) (nowMs : Int) (nowStr : String) :
      Step s (toggleRest s nowMs nowStr)
  | taskOp (s : WorkState) (id nowMs : Int) (nowStr : String) :
      Step s (toggleTask s id nowMs nowStr)
  | soluOp (s : WorkState) (id nowMs : Int) (nowStr : String) :
      Step s (addSolu s id nowMs nowStr)
  | completeOp (s : WorkState) (estParse : String → Option ℚ) (id nowMs : Int)
      (nowStr nowDateStr : String) :
      Step s (completeTask estParse s id nowMs nowStr nowDateStr).state
  | reopenOp (s : WorkState) (id : Int) : Step s (reopen s id)
  | addOp (s : WorkState) (name estStr : String) (nowMs : Int) (nowStr : String) :
      Step s (confirmAddTask s name estStr nowMs nowStr)

/-- States reachable from the default state by any operation sequence. -/
inductive Reachable : WorkState → Prop where
  | init : Reachable defaultState
  | step {s s' : WorkState} : Reachable s → Step s s' → Reachable s'

/-- Like `Step`, but the operations that store a `Date.now()` reading
as a task id or a timer start instant are required to draw a fresh id
(no collision with an existing task id) and a nonzero reading (the JS
truthiness guards treat the instant 0, i.e. the 1970 epoch, as "no
timer").  `toggleClock`, `completeTask` and `reopen` store no timer
instant and stay unrestricted. -/
inductive StepFresh : WorkState → WorkState → Prop where
  | clockOp (s : WorkState) (nowMs : Int) (nowStr dateStr : String) :
      StepFresh s (toggleClock s nowMs nowStr dateStr)
  | meetOp (s : WorkState) (nowMs : Int) (nowStr : String) (hnz : nowMs ≠ 0) :
      StepFresh s (toggleMeeting s nowMs nowStr)
  | restOp (s : WorkState) (nowMs : Int) (nowStr : String) (hnz : nowMs ≠ 0) :
      StepFresh s (toggleRest s nowMs nowStr)
  | taskOp (s : WorkState) (id nowMs : Int) (nowStr : String) (hnz : nowMs ≠ 0) :
      StepFresh s (toggleTask s id nowMs nowStr)
  | soluOp (s : WorkState) (id nowMs : Int) (nowStr : String) (hnz : nowMs ≠ 0) :
      StepFresh s (addSolu s id nowMs nowStr)
  | completeOp (s : WorkState) (estParse : String → Option ℚ) (id nowMs : Int)
      (nowStr nowDateStr : String) :
      StepFresh s (completeTask estParse s id nowMs nowStr nowDateStr).state
  | reopenOp (s : WorkState) (id : Int) : StepFresh s (reopen s id)
  | addOp (s : WorkState) (name estStr : String) (nowMs : Int) (nowStr : String)
      (hfresh : nowMs ∉ s.tasks.map Task.id) (hnz : nowMs ≠ 0) :
      StepFresh s (confirmAddTask s name estStr nowMs nowStr)

/-- States reachable when every added task receives a fresh id and
every stored `Date.now()` reading is nonzero. -/
inductive ReachableFresh : WorkState → Prop where
  | init : ReachableFresh defaultState
  | step {s s' : WorkState} : ReachableFresh s → StepFresh s s' → ReachableFresh s'

/-- Counterexample run for the open-entry invariant: clock in, add task
(id 5), start it, add a second task in the same millisecond (duplicate
id 5), toggle a meeting.  `stopCurrentTaskTimer` then finds the newer
task first and does not stop the running one, so its entry stays open
while the meeting opens a second entry. -/
def c1CexState : WorkState :=
  toggleMeeting
    (confirmAddTask
      (toggleTask
        (confirmAddTask (toggleClock defaultState 1 "09:00:00" "2024/1/1") "a" "1" 5 "09:00:01")
        5 6 "09:00:02")
      "b" "1" 5 "09:00:03")
    7 "09:00:04"

/-- Digit-string to number, for the spec-side estimate parser. -/
def digitsToNat (cs : List Char) : Option Nat :=
  cs.foldl (fun acc c =>
    match acc with
    | none => none
    | some n => if c.isDigit then some (n * 10 + (c.toNat - 48)) else none) (some 0)

/-- Unsigned decimal parsing over a character list: digits with an
optional single fractional part. -/
def parseUnsigned (cs : List Char) : Option ℚ :=
  if cs.contains '.' then
    let ip := cs.takeWhile (fun c => c != '.')
    let fp := (cs.dropWhile (fun c => c != '.')).drop 1
    if ip ≠ [] ∧ fp ≠ [] ∧ ¬ fp.contains '.' then
      match digitsToNat ip, digitsToNat fp with
      | some a, some b => some ((a : ℚ) + (b : ℚ) / ((10 : ℚ) ^ fp.length))
      | _, _ => none
    else none
  else if cs ≠ [] then (digitsToNat cs).map (fun n => (n : ℚ))
  else none

/-- Modelled from the spec: a decimal-number parser, used only to state
what "a parsable positive number" means ("requires ... a parsable
positive estimate").  Accepts an optional sign, digits, and an optional
fractional part. -/
def parseDecimal (s : String) : Option ℚ :=
  match s.toList with
  | '-' :: rest => (parseUnsigned rest).map (fun q => -q)
  | cs => parseUnsigned cs

/-- Modelled from the spec: "a parsable positive estimate" — the string
parses as a decimal number and that number is strictly positive. -/
def specEstimatePositive (estStr : String) : Bool :=
  match parseDecimal estStr with
  | some q => decide (0 < q)
  | none => false

/-- Solution of `c2Task`, with a non-blank research note. -/
def c2Solu : Solution :=
  { text := "初始阶段", seconds := 30, history := [], researchNote := "findings" }

/-- A task whose deliverable note is empty (validation must reject
completing it). -/
def c2Task : Task :=
  { id := 9, createdAt := "c", completedAt := none, name := "t9", estTime := "2"
  , spentSeconds := 30, lastStartTimestamp := none
  , solutions := [c2Solu]
  , dev := "", rem := "", completed := false, deviationLabel := "", deviationClass := "" }

/-- A state containing `c2Task`, used to witness the `completeTask`
validation property. -/
def c2State : WorkState :=
  { defaultState with isClockedIn := true, tasks := [c2Task] }

/-- Solution of `c4CexTask`, with one open entry started at 10000. -/
def c4CexSolu : Solution :=
  { text := "初始阶段", seconds := 0
  , history := [{ startStr := "s", endStr := none, startMs := 10000, duration := none }]
  , researchNote := "" }

/-- Task whose running timer started at instant 10000. -/
def c4CexTask : Task :=
  { id := 1, createdAt := "c", completedAt := none, name := "a", estTime := "1"
  , spentSeconds := 0, lastStartTimestamp := some 10000
  , solutions := [c4CexSolu]
  , dev := "", rem := "", completed := false, deviationLabel := "", deviationClass := "" }

/-- A state whose active task started at instant 10000: stopping it at
an earlier instant exhibits the unclamped negative elapsed time. -/
def c4CexState : WorkState :=
  { defaultState with
    isClockedIn := true
    activeTaskId := some 1
    tasks := [c4CexTask] }

/-- A solution with one open history entry started at instant 10000. -/
def c4Solu : Solution :=
  { text := "初始阶段", seconds := 1
  , history := [{ startStr := "s", endStr := none, startMs := 10000, duration := none }]
  , researchNote := "" }

/-- The active task of `c4AllTimersState`. -/
def c4Task : Task :=
  { id := 1, createdAt := "c", completedAt := none, name := "a", estTime := "1"
  , spentSeconds := 2, lastStartTimestamp := some 10000
  , solutions := [c4Solu]
  , dev := "", rem := "", completed := false, deviationLabel := "", deviationClass := "" }

/-- A state with a running task timer, meeting timer and rest timer all
set (with open entries), used to exercise the elapsed-time arithmetic of
all three stop operations at once. -/
def c4AllTimersState : WorkState :=
  { defaultState with
    isClockedIn := true
    activeTaskId := some 1
    tasks := [c4Task]
    meetingSeconds := 3
    restSeconds := 4
    meetingHistory := [{ startStr := "m", endStr := none, startMs := 2000, duration := none }]
    restHistory := [{ startStr := "r", endStr := none, startMs := 3000, duration := none }]
    lastMeetingTimestamp := some 2000
    lastRestTimestamp := some 3000 }

/-- Completable task (non-blank `dev` and `researchNote`), not active. -/
def c8Task1 : Task :=
  { id := 1, createdAt := "c1", completedAt := none, name := "a", estTime := "1"
  , spentSeconds := 0, lastStartTimestamp := none
  , solutions := [{ text := "初始阶段", seconds := 0, history := [], researchNote := "note" }]
  , dev := "done", rem := "", completed := false, deviationLabel := "", deviationClass := "" }

/-- A different task that is currently active with a running timer. -/
def c8Task2 : Task :=
  { id := 2, createdAt := "c2", completedAt := none, name := "b", estTime := "1"
  , spentSeconds := 7, lastStartTimestamp := some 100
  , solutions := [{ text := "初始阶段", seconds := 7
                  , history := [{ startStr := "s", endStr := none, startMs := 100
                                , duration := none }]
                  , researchNote := "" }]
  , dev := "", rem := "", completed := false, deviationLabel := "", deviationClass := "" }

/-- State in which task 2 is active while task 1 (a different task) is
completed: `completeTask 1` stops task 2's timer. -/
def c8CexState : WorkState :=
  { defaultState with
    isClockedIn := true
    activeTaskId := some 2
    tasks := [c8Task1, c8Task2] }

/-- A clocked-out state carrying 60 accumulated task seconds from an
earlier session, used to witness the cross-session `taskTotal`. -/
def c10WitState : WorkState :=
  { defaultState with
    tasks := [{ id := 3, createdAt := "c", completedAt := none, name := "a", estTime := "1"
              , spentSeconds := 60, lastStartTimestamp := none
              , solutions := [{ text := "初始阶段", seconds := 60
                              , history := [{ startStr := "s", endStr := some "e"
                                            , startMs := 1000, duration := some 60 }]
                              , researchNote := "" }]
              , dev := "", rem := "", completed := false
              , deviationLabel := "", deviationClass := "" }]
    attendance := [{ date := "d0", clockIn := some "09:00", clockOut := "10:00"
                   , clockInFullMs := some 1000, clockOutFullMs := 61000
                   , taskTotal := 60, meeting := 0, rest := 0, totalClocked := 60 }] }

/-! Generic lemmas about the list helpers. -/

theorem updateLast_append_one {α : Type _} (f : α → α) :
    ∀ (l : List α) (x : α), updateLast f (l ++ [x]) = l ++ [f x]
  | [], _ => rfl
  | [_], _ => rfl
  | a :: b :: l, x => by
    have ih := updateLast_append_one f (b :: l) x
    simp only [List.cons_append, updateLast, List.append_eq] at ih ⊢
    rw [ih]

theorem updateLast_ne_nil {α : Type _} (f : α → α) (l : List α) (h : l ≠ []) :
    updateLast f l ≠ [] := by
  cases l with
  | nil => exact absurd rfl h
  | cons a l => cases l <;> simp [updateLast]

theorem updateFirst_split {α : Type _} (p : α → Bool) (f : α → α) :
    ∀ (pre : List α) (t : α) (post : List α), (∀ x ∈ pre, p x = false) → p t = true →
      updateFirst p f (pre ++ t :: post) = pre ++ f t :: post
  | [], t, post, _, hp => by simp [updateFirst, hp]
  | a :: pre, t, post, hpre, hp => by
    have ha := hpre a (by simp)
    simp only [List.cons_append, updateFirst, ha, Bool.false_eq_true, if_false, List.append_eq]
    rw [updateFirst_split p f pre t post (fun x hx => hpre x (by simp [hx])) hp]

theorem find?_split {α : Type _} (p : α → Bool) :
    ∀ (pre : List α) (t : α) (post : List α), (∀ x ∈ pre, p x = false) → p t = true →
      (pre ++ t :: post).find? p = some t
  | [], t, post, _, hp => by simp [List.find?, hp]
  | a :: pre, t, post, hpre, hp => by
    have ha := hpre a (by simp)
    simp only [List.cons_append, List.find?, ha]
    exact find?_split p pre t post (fun x hx => hpre x (by simp [hx])) hp

theorem splitFirst_eq_some {α : Type _} (p : α → Bool) :
    ∀ (l pre : List α) (t : α) (post : List α), splitFirst p l = some (pre, t, post) →
      l = pre ++ t :: post ∧ p t = true ∧ ∀ x ∈ pre, p x = false
  | [], pre, t, post, h => by simp [splitFirst] at h
  | a :: l, pre, t, post, h => by
    by_cases ha : p a = true
    · rw [splitFirst, if_pos ha, Option.some_inj] at h
      injection h with h1 h2
      injection h2 with h2 h3
      subst h1; subst h2; subst h3
      exact ⟨rfl, ha, by simp⟩
    · rw [splitFirst, if_neg ha, Option.map_eq_some'] at h
      obtain ⟨⟨pre', t', post'⟩, hsp, hEq⟩ := h
      injection hEq with h1 h2
      injection h2 with h2 h3
      subst h1; subst h2; subst h3
      obtain ⟨hl, hpt, hpre⟩ := splitFirst_eq_some p l pre' t' post' hsp
      have ha' : p a = false := by simpa using ha
      refine ⟨by rw [hl]; rfl, hpt, ?_⟩
      intro x hx
      rcases List.mem_cons.mp hx with rfl | hx'
      · exact ha'
      · exact hpre x hx'

theorem mem_updateFirst_of_neg {α : Type _} (p : α → Bool) (f : α → α) (u : α) :
    ∀ l : List α, u ∈ l → p u = false → u ∈ updateFirst p f l
  | a :: l, hu, hp => by
    by_cases ha : p a = true
    · rw [updateFirst, if_pos ha]
      rcases List.mem_cons.mp hu with rfl | h
      · rw [ha] at hp; cases hp
      · exact List.mem_cons_of_mem _ h
    · have ha' : p a = false := by revert ha; cases p a <;> simp
      rw [updateFirst, if_neg ha]
      rcases List.mem_cons.mp hu with rfl | h
      · exact List.mem_cons_self _ _
      · exact List.mem_cons_of_mem _ (mem_updateFirst_of_neg p f u l h hp)

theorem mem_updateFirst {α : Type _} (p : α → Bool) (f : α → α) (y : α) :
    ∀ l : List α, y ∈ updateFirst p f l → y ∈ l ∨ ∃ x ∈ l, p x = true ∧ y = f x
  | a :: l, hy => by
    by_cases ha : p a = true
    · rw [updateFirst, if_pos ha] at hy
      rcases List.mem_cons.mp hy with rfl | h
      · exact Or.inr ⟨a, List.mem_cons_self _ _, ha, rfl⟩
      · exact Or.inl (List.mem_cons_of_mem _ h)
    · rw [updateFirst, if_neg ha] at hy
      rcases List.mem_cons.mp hy with rfl | h
      · exact Or.inl (List.mem_cons_self _ _)
      · rcases mem_updateFirst p f y l h with h2 | ⟨x, hx, hpx, hyx⟩
        · exact Or.inl (List.mem_cons_of_mem _ h2)
        · exact Or.inr ⟨x, List.mem_cons_of_mem _ hx, hpx, hyx⟩

theorem map_updateFirst_eq {α β : Type _} (p : α → Bool) (f : α → α) (g : α → β)
    (hg : ∀ x, g (f x) = g x) : ∀ l : List α, (updateFirst p f l).map g = l.map g
  | [] => rfl
  | a :: l => by
    by_cases ha : p a = true
    · rw [updateFirst, if_pos ha]; simp [hg]
    · rw [updateFirst, if_neg ha]; simp [map_updateFirst_eq p f g hg l]

/-! Projection facts for the stop/end operations: each touches only a
fixed set of fields. -/

@[simp] theorem stop_tasks (s : WorkState) (n : Int) (str : String) :
    (stopCurrentTaskTimer s n str).tasks = stopTasks s n str := rfl

@[simp] theorem stop_attendance (s : WorkState) (n : Int) (str : String) :
    (stopCurrentTaskTimer s n str).attendance = s.attendance := rfl

@[simp] theorem stop_activeTaskId (s : WorkState) (n : Int) (str : String) :
    (stopCurrentTaskTimer s n str).activeTaskId = s.activeTaskId := rfl

@[simp] theorem stop_isClockedIn (s : WorkState) (n : Int) (str : String) :
    (stopCurrentTaskTimer s n str).isClockedIn = s.isClockedIn := rfl

@[simp] theorem stop_isMeeting (s : WorkState) (n : Int) (str : String) :
    (stopCurrentTaskTimer s n str).isMeeting = s.isMeeting := rfl

@[simp] theorem stop_isResting (s : WorkState) (n : Int) (str : String) :
    (stopCurrentTaskTimer s n str).isResting = s.isResting := rfl

@[simp] theorem stop_meetingSeconds (s : WorkState) (n : Int) (str : String) :
    (stopCurrentTaskTimer s n str).meetingSeconds = s.meetingSeconds := rfl

@[simp] theorem stop_restSeconds (s : WorkState) (n : Int) (str : String) :
    (stopCurrentTaskTimer s n str).restSeconds = s.restSeconds := rfl

@[simp] theorem stop_meetingHistory (s : WorkState) (n : Int) (str : String) :
    (stopCurrentTaskTimer s n str).meetingHistory = s.meetingHistory := rfl

@[simp] theorem stop_restHistory (s : WorkState) (n : Int) (str : String) :
    (stopCurrentTaskTimer s n str).restHistory = s.restHistory := rfl

@[simp] theorem stop_clockInTime (s : WorkState) (n : Int) (str : String) :
    (stopCurrentTaskTimer s n str).clockInTime = s.clockInTime := rfl

@[simp] theorem stop_clockInFullMs (s : WorkState) (n : Int) (str : String) :
    (stopCurrentTaskTimer s n str).clockInFullMs = s.clockInFullMs := rfl

@[simp] theorem stop_lastMeetingTimestamp (s : WorkState) (n : Int) (str : String) :
    (stopCurrentTaskTimer s n str).lastMeetingTimestamp = s.lastMeetingTimestamp := rfl

@[simp] theorem stop_lastRestTimestamp (s : WorkState) (n : Int) (str : String) :
    (stopCurrentTaskTimer s n str).lastRestTimestamp = s.lastRestTimestamp := rfl

@[simp] theorem endMeeting_isMeeting (s : WorkState) (n : Int) (str : String) :
    (endMeeting s n str).isMeeting = false := by
  unfold endMeeting; cases s.lastMeetingTimestamp <;> (try dsimp only) <;> (try split) <;> rfl

@[simp] theorem endMeeting_lastMeetingTimestamp (s : WorkState) (n : Int) (str : String)
    (hnz : s.lastMeetingTimestamp ≠ some 0) :
    (endMeeting s n str).lastMeetingTimestamp = none := by
  unfold endMeeting
  cases hts : s.lastMeetingTimestamp with
  | none => rfl
  | some ts =>
    have hz : ¬ ts = 0 := fun h => hnz (by rw [hts, h])
    dsimp only
    rw [if_neg hz]

@[simp] theorem endMeeting_tasks (s : WorkState) (n : Int) (str : String) :
    (endMeeting s n str).tasks = s.tasks := by
  unfold endMeeting; cases s.lastMeetingTimestamp <;> (try dsimp only) <;> (try split) <;> rfl

@[simp] theorem endMeeting_attendance (s : WorkState) (n : Int) (str : String) :
    (endMeeting s n str).attendance = s.attendance := by
  unfold endMeeting; cases s.lastMeetingTimestamp <;> (try dsimp only) <;> (try split) <;> rfl

@[simp] theorem endMeeting_activeTaskId (s : WorkState) (n : Int) (str : String) :
    (endMeeting s n str).activeTaskId = s.activeTaskId := by
  unfold endMeeting; cases s.lastMeetingTimestamp <;> (try dsimp only) <;> (try split) <;> rfl

@[simp] theorem endMeeting_isClockedIn (s : WorkState) (n : Int) (str : String) :
    (endMeeting s n str).isClockedIn = s.isClockedIn := by
  unfold endMeeting; cases s.lastMeetingTimestamp <;> (try dsimp only) <;> (try split) <;> rfl

@[simp] theorem endMeeting_isResting (s : WorkState) (n : Int) (str : String) :
    (endMeeting s n str).isResting = s.isResting := by
  unfold endMeeting; cases s.lastMeetingTimestamp <;> (try dsimp only) <;> (try split) <;> rfl

@[simp] theorem endMeeting_restSeconds (s : WorkState) (n : Int) (str : String) :
    (endMeeting s n str).restSeconds = s.restSeconds := by
  unfold endMeeting; cases s.lastMeetingTimestamp <;> (try dsimp only) <;> (try split) <;> rfl

@[simp] theorem endMeeting_restHistory (s : WorkState) (n : Int) (str : String) :
    (endMeeting s n str).restHistory = s.restHistory := by
  unfold endMeeting; cases s.lastMeetingTimestamp <;> (try dsimp only) <;> (try split) <;> rfl

@[simp] theorem endMeeting_lastRestTimestamp (s : WorkState) (n : Int) (str : String) :
    (endMeeting s n str).lastRestTimestamp = s.lastRestTimestamp := by
  unfold endMeeting; cases s.lastMeetingTimestamp <;> (try dsimp only) <;> (try split) <;> rfl

@[simp] theorem endMeeting_clockInTime (s : WorkState) (n : Int) (str : String) :
    (endMeeting s n str).clockInTime = s.clockInTime := by
  unfold endMeeting; cases s.lastMeetingTimestamp <;> (try dsimp only) <;> (try split) <;> rfl

@[simp] theorem endMeeting_clockInFullMs (s : WorkState) (n : Int) (str : String) :
    (endMeeting s n str).clockInFullMs = s.clockInFullMs := by
  unfold endMeeting; cases s.lastMeetingTimestamp <;> (try dsimp only) <;> (try split) <;> rfl

@[simp] theorem endRest_isResting (s : WorkState) (n : Int) (str : String) :
    (endRest s n str).isResting = false := by
  unfold endRest; cases s.lastRestTimestamp <;> (try dsimp only) <;> (try split) <;> rfl

@[simp] theorem endRest_lastRestTimestamp (s : WorkState) (n : Int) (str : String)
    (hnz : s.lastRestTimestamp ≠ some 0) :
    (endRest s n str).lastRestTimestamp = none := by
  unfold endRest
  cases hts : s.lastRestTimestamp with
  | none => rfl
  | some ts =>
    have hz : ¬ ts = 0 := fun h => hnz (by rw [hts, h])
    dsimp only
    rw [if_neg hz]

@[simp] theorem endRest_tasks (s : WorkState) (n : Int) (str : String) :
    (endRest s n str).tasks = s.tasks := by
  unfold endRest; cases s.lastRestTimestamp <;> (try dsimp only) <;> (try split) <;> rfl

@[simp] theorem endRest_attendance (s : WorkState) (n : Int) (str : String) :
    (endRest s n str).attendance = s.attendance := by
  unfold endRest; cases s.lastRestTimestamp <;> (try dsimp only) <;> (try split) <;> rfl

@[simp] theorem endRest_activeTaskId (s : WorkState) (n : Int) (str : String) :
    (endRest s n str).activeTaskId = s.activeTaskId := by
  unfold endRest; cases s.lastRestTimestamp <;> (try dsimp only) <;> (try split) <;> rfl

@[simp] theorem endRest_isClockedIn (s : WorkState) (n : Int) (str : String) :
    (endRest s n str).isClockedIn = s.isClockedIn := by
  unfold endRest; cases s.lastRestTimestamp <;> (try dsimp only) <;> (try split) <;> rfl

@[simp] theorem endRest_isMeeting (s : WorkState) (n : Int) (str : String) :
    (endRest s n str).isMeeting = s.isMeeting := by
  unfold endRest; cases s.lastRestTimestamp <;> (try dsimp only) <;> (try split) <;> rfl

@[simp] theorem endRest_meetingSeconds (s : WorkState) (n : Int) (str : String) :
    (endRest s n str).meetingSeconds = s.meetingSeconds := by
  unfold endRest; cases s.lastRestTimestamp <;> (try dsimp only) <;> (try split) <;> rfl

@[simp] theorem endRest_meetingHistory (s : WorkState) (n : Int) (str : String) :
    (endRest s n str).meetingHistory = s.meetingHistory := by
  unfold endRest; cases s.lastRestTimestamp <;> (try dsimp only) <;> (try split) <;> rfl

@[simp] theorem endRest_lastMeetingTimestamp (s : WorkState) (n : Int) (str : String) :
    (endRest s n str).lastMeetingTimestamp = s.lastMeetingTimestamp := by
  unfold endRest; cases s.lastRestTimestamp <;> (try dsimp only) <;> (try split) <;> rfl

@[simp] theorem endRest_clockInTime (s : WorkState) (n : Int) (str : String) :
    (endRest s n str).clockInTime = s.clockInTime := by
  unfold endRest; cases s.lastRestTimestamp <;> (try dsimp only) <;> (try split) <;> rfl

@[simp] theorem endRest_clockInFullMs (s : WorkState) (n : Int) (str : String) :
    (endRest s n str).clockInFullMs = s.clockInFullMs := by
  unfold endRest; cases s.lastRestTimestamp <;> (try dsimp only) <;> (try split) <;> rfl

/-- Claim C2: `completeTask` on a task whose deliverable note is blank,
or whose current (last) solution's research note is blank, reports a
validation failure and returns the state unchanged. -/
theorem c2CompleteTaskValidation (estParse : String → Option ℚ) (s : WorkState)
    (id nowMs : Int) (nowStr nowDateStr : String)
    (pre post : List Task) (t : Task)
    (hsplit : splitFirst (fun tk => tk.id == id) s.tasks = some (pre, t, post))
    (ls : Solution) (hlast : t.solutions.getLast? = some ls)
    (hbad : strTrim t.dev = "" ∨ strTrim ls.researchNote = "") :
    (completeTask estParse s id nowMs nowStr nowDateStr).state = s ∧
    ((completeTask estParse s id nowMs nowStr nowDateStr).outcome = CompleteOutcome.missingDev ∨
     (completeTask estParse s id nowMs nowStr nowDateStr).outcome =
       CompleteOutcome.missingResearch) := by
  unfold completeTask
  rw [hsplit]
  dsimp only
  by_cases hdev : strTrim t.dev = ""
  · rw [if_pos hdev]
    exact ⟨rfl, Or.inl rfl⟩
  · rcases hbad with h | h
    · exact absurd h hdev
    · rw [if_neg hdev, hlast]
      dsimp only
      rw [if_pos h]
      exact ⟨rfl, Or.inr rfl⟩

/-- Witness for C2: completing the task with a blank deliverable note in
`c2State` fails with `missingDev` and leaves the state unchanged. -/
theorem c2Witness :
    (completeTask (fun _ => none) c2State 9 100 "ts" "d").state = c2State ∧
    ((completeTask (fun _ => none) c2State 9 100 "ts" "d").outcome =
       CompleteOutcome.missingDev ∨
     (completeTask (fun _ => none) c2State 9 100 "ts" "d").outcome =
       CompleteOutcome.missingResearch) :=
  c2CompleteTaskValidation (fun _ => none) c2State 9 100 "ts" "d" [] [] c2Task rfl c2Solu rfl
    (Or.inl (by decide))

/-- Rows with a given username after filtering away that username and
re-appending one row for it: exactly that one row remains. -/
theorem filterNeAppendSelf (store : SyncStore) (u : String) (row : String × String × String)
    (hrow : row.1 = u) :
    ((store.filter (fun r => r.1 != u)) ++ [row]).filter (fun r => r.1 == u) = [row] := by
  induction store with
  | nil => simp [hrow]
  | cons r rest ih =>
    rw [List.filter_cons]
    by_cases hr : r.1 = u
    · rw [if_neg (by simp [hr])]
      exact ih
    · rw [if_pos (by simp [hr]), List.cons_append, List.filter_cons, if_neg (by simp [hr])]
      exact ih

/-- Success-path evaluation of `do_POST`. -/
theorem do_POST_eq_ok (nowTs path : String) (fields stf : List (String × Json)) (u : String)
    (store : SyncStore) (hpath : pathPart path = "/sync")
    (hgu : pyDictGet fields "username" = some (Json.str u)) (hu : u ≠ "")
    (hgs : pyDictGet fields "state" = some (Json.obj stf)) :
    do_POST true nowTs path (some (Json.obj fields)) store =
      ⟨some (200, "ok"), upsertRow store u (Json.dumps (Json.obj stf)) nowTs⟩ := by
  unfold do_POST
  rw [if_neg (by simp [hpath])]
  dsimp only
  rw [hgu]
  dsimp only
  rw [if_neg hu, hgs]
  rfl

/-- Claim C3: two valid `/sync` POSTs for the same username are both
answered `200 ok`, and afterwards the store has exactly one row for the
username, holding the canonical serialization of the second request's
state (full replacement, no merge). -/
theorem c3LastWriteWins (store : SyncStore) (u : String) (hu : u ≠ "")
    (f1 f2 st1 st2 : List (String × Json))
    (h1u : pyDictGet f1 "username" = some (Json.str u))
    (h1s : pyDictGet f1 "state" = some (Json.obj st1))
    (h2u : pyDictGet f2 "username" = some (Json.str u))
    (h2s : pyDictGet f2 "state" = some (Json.obj st2))
    (hdiff : Json.obj st1 ≠ Json.obj st2) (ts1 ts2 : String) :
    (do_POST true ts1 "/sync" (some (Json.obj f1)) store).response = some (200, "ok") ∧
    (do_POST true ts2 "/sync" (some (Json.obj f2))
        (do_POST true ts1 "/sync" (some (Json.obj f1)) store).store).response =
      some (200, "ok") ∧
    ((do_POST true ts2 "/sync" (some (Json.obj f2))
        (do_POST true ts1 "/sync" (some (Json.obj f1)) store).store).store.filter
      (fun r => r.1 == u)) = [(u, Json.dumps (Json.obj st2), ts2)] := by
  rw [do_POST_eq_ok ts1 "/sync" f1 st1 u store rfl h1u hu h1s]
  dsimp only
  rw [do_POST_eq_ok ts2 "/sync" f2 st2 u _ rfl h2u hu h2s]
  exact ⟨rfl, rfl, filterNeAppendSelf _ u _ rfl⟩

/-- Witness for C3: two concrete requests for user `bob`; the store ends
with exactly the second state's serialization. -/
theorem c3Witness :
    ((do_POST true "t2" "/sync"
        (some (Json.obj [("username", Json.str "bob"), ("state", Json.obj [("x", Json.num 2)])]))
        (do_POST true "t1" "/sync"
          (some (Json.obj [("username", Json.str "bob"),
                           ("state", Json.obj [("x", Json.num 1)])]))
          []).store).store.filter (fun r => r.1 == "bob")) =
      [("bob", Json.dumps (Json.obj [("x", Json.num 2)]), "t2")] :=
  (c3LastWriteWins [] "bob" (by decide)
    [("username", Json.str "bob"), ("state", Json.obj [("x", Json.num 1)])]
    [("username", Json.str "bob"), ("state", Json.obj [("x", Json.num 2)])]
    [("x", Json.num 1)] [("x", Json.num 2)]
    rfl rfl rfl rfl
    (by
      intro h
      injection h with h1
      injection h1 with h2 h3
      injection h2 with h4 h5
      injection h5 with h6
      exact absurd h6 (by norm_num))
    "t1" "t2").2.2

/-- Corrected C6 (counterexample side): a `/sync` POST whose body is a
valid JSON object with `username` present and a string — the empty
string — and `state` an object is rejected with `400`, not answered
`200` as the claim states (`if not username` also rejects falsy
strings). -/
theorem c6Counterexample :
    (do_POST true "ts" "/sync"
        (some (Json.obj [("username", Json.str ""), ("state", Json.obj [])])) []).response =
      some (400, "missing username") ∧
    (do_POST true "ts" "/sync"
        (some (Json.obj [("username", Json.str ""), ("state", Json.obj [])])) []).response ≠
      some (200, "ok") := by
  exact ⟨rfl, by decide⟩

/-- Amended C6: full response characterisation of `do_POST`: 404 off
`/sync`; 400 for invalid JSON; for a JSON-object body, 400 when the
username field is absent, not a string, or the empty string, 400 when
the state field is absent or not an object, 500 on storage failure, and
200 with an upsert otherwise. -/
theorem c6AmendedResponses (dbOk : Bool) (nowTs path : String) (parsed : Option Json)
    (store : SyncStore) (fields stf : List (String × Json)) (u : String) :
    (pathPart path ≠ "/sync" →
      do_POST dbOk nowTs path parsed store = ⟨some (404, "not found"), store⟩) ∧
    (pathPart path = "/sync" → parsed = none →
      do_POST dbOk nowTs path parsed store = ⟨some (400, "invalid json"), store⟩) ∧
    (pathPart path = "/sync" → parsed = some (Json.obj fields) →
      ((∀ w, pyDictGet fields "username" ≠ some (Json.str w)) ∨
        pyDictGet fields "username" = some (Json.str "")) →
      do_POST dbOk nowTs path parsed store = ⟨some (400, "missing username"), store⟩) ∧
    (pathPart path = "/sync" → parsed = some (Json.obj fields) →
      pyDictGet fields "username" = some (Json.str u) → u ≠ "" →
      (∀ sf, pyDictGet fields "state" ≠ some (Json.obj sf)) →
      do_POST dbOk nowTs path parsed store = ⟨some (400, "missing state"), store⟩) ∧
    (pathPart path = "/sync" → parsed = some (Json.obj fields) →
      pyDictGet fields "username" = some (Json.str u) → u ≠ "" →
      pyDictGet fields "state" = some (Json.obj stf) → dbOk = true →
      do_POST dbOk nowTs path parsed store =
        ⟨some (200, "ok"), upsertRow store u (Json.dumps (Json.obj stf)) nowTs⟩) ∧
    (pathPart path = "/sync" → parsed = some (Json.obj fields) →
      pyDictGet fields "username" = some (Json.str u) → u ≠ "" →
      pyDictGet fields "state" = some (Json.obj stf) → dbOk = false →
      do_POST dbOk nowTs path parsed store = ⟨some (500, "storage error"), store⟩) := by
  refine ⟨?_, ?_, ?_, ?_, ?_, ?_⟩
  · intro h
    unfold do_POST
    rw [if_pos h]
  · intro h hp
    unfold do_POST
    rw [if_neg (by simp [h]), hp]
  · intro h hp hbad
    unfold do_POST
    rw [if_neg (by simp [h]), hp]
    dsimp only
    rcases hbad with hb | hb
    · cases hg : pyDictGet fields "username" with
      | none => rfl
      | some v =>
        cases v with
        | str w => exact absurd hg (hb w)
        | null => rfl
        | bool b => rfl
        | num q => rfl
        | arr a => rfl
        | obj o => rfl
    · rw [hb]
      rfl
  · intro h hp hg hu hst
    unfold do_POST
    rw [if_neg (by simp [h]), hp]
    dsimp only
    rw [hg]
    dsimp only
    rw [if_neg hu]
    cases hg2 : pyDictGet fields "state" with
    | none => rfl
    | some v =>
      cases v with
      | obj o => exact absurd hg2 (hst o)
      | null => rfl
      | bool b => rfl
      | num q => rfl
      | str w => rfl
      | arr a => rfl
  · intro h hp hg hu hst hdb
    unfold do_POST
    rw [if_neg (by simp [h]), hp]
    dsimp only
    rw [hg]
    dsimp only
    rw [if_neg hu, hst, hdb]
    rfl
  · intro h hp hg hu hst hdb
    unfold do_POST
    rw [if_neg (by simp [h]), hp]
    dsimp only
    rw [hg]
    dsimp only
    rw [if_neg hu, hst, hdb]
    rfl

/-- Witness for the amended C6: one concrete request per response class. -/
theorem c6AmendedWitness :
    (do_POST true "ts" "/bad" none []).response = some (404, "not found") ∧
    (do_POST true "ts" "/sync" none []).response = some (400, "invalid json") ∧
    (do_POST true "ts" "/sync" (some (Json.obj [("username", Json.num 3)])) []).response =
      some (400, "missing username") ∧
    (do_POST true "ts" "/sync" (some (Json.obj [("username", Json.str "u")])) []).response =
      some (400, "missing state") ∧
    (do_POST true "ts" "/sync"
        (some (Json.obj [("username", Json.str "u"), ("state", Json.obj [])])) []).response =
      some (200, "ok") ∧
    (do_POST false "ts" "/sync"
        (some (Json.obj [("username", Json.str "u"), ("state", Json.obj [])])) []).response =
      some (500, "storage error") := by
  refine ⟨?_, ?_, ?_, ?_, ?_, ?_⟩
  · rw [(c6AmendedResponses true "ts" "/bad" none [] [] [] "u").1 (by decide)]
  · rw [(c6AmendedResponses true "ts" "/sync" none [] [] [] "u").2.1 rfl rfl]
  · rw [(c6AmendedResponses true "ts" "/sync" (some (Json.obj [("username", Json.num 3)]))
      [] [("username", Json.num 3)] [] "u").2.2.1 rfl rfl
      (Or.inl (fun w h => by
        have h' : some (Json.num 3) = some (Json.str w) := h
        injection h' with h2
        exact Json.noConfusion h2))]
  · rw [(c6AmendedResponses true "ts" "/sync" (some (Json.obj [("username", Json.str "u")]))
      [] [("username", Json.str "u")] [] "u").2.2.2.1 rfl rfl rfl (by decide)
      (fun sf h => by
        have h' : (none : Option Json) = some (Json.obj sf) := h
        exact Option.noConfusion h')]
  · rw [(c6AmendedResponses true "ts" "/sync"
      (some (Json.obj [("username", Json.str "u"), ("state", Json.obj [])]))
      [] [("username", Json.str "u"), ("state", Json.obj [])] [] "u").2.2.2.2.1
      rfl rfl rfl (by decide) rfl rfl]
  · rw [(c6AmendedResponses false "ts" "/sync"
      (some (Json.obj [("username", Json.str "u"), ("state", Json.obj [])]))
      [] [("username", Json.str "u"), ("state", Json.obj [])] [] "u").2.2.2.2.2
      rfl rfl rfl (by decide) rfl rfl]

/-- `clockOutPrep` never touches the attendance list. -/
theorem clockOutPrep_attendance (s : WorkState) (n : Int) (str : String) :
    (clockOutPrep s n str).attendance = s.attendance := by
  unfold clockOutPrep
  dsimp only
  split_ifs <;> simp

/-- `clockOutPrep` never touches the task list beyond `stopTasks`. -/
theorem clockOutPrep_tasks (s : WorkState) (n : Int) (str : String) :
    (clockOutPrep s n str).tasks = stopTasks s n str := by
  unfold clockOutPrep
  dsimp only
  split_ifs <;> simp

/-- `clockOutPrep` preserves the clocked-in flag. -/
theorem clockOutPrep_isClockedIn (s : WorkState) (n : Int) (str : String) :
    (clockOutPrep s n str).isClockedIn = s.isClockedIn := by
  unfold clockOutPrep
  dsimp only
  split_ifs <;> simp

/-- `clockOutPrep` preserves `activeTaskId`. -/
theorem clockOutPrep_activeTaskId (s : WorkState) (n : Int) (str : String) :
    (clockOutPrep s n str).activeTaskId = s.activeTaskId := by
  unfold clockOutPrep
  dsimp only
  split_ifs <;> simp

/-- `clockOutPrep` preserves the clock-in display and instant. -/
theorem clockOutPrep_clockInTime (s : WorkState) (n : Int) (str : String) :
    (clockOutPrep s n str).clockInTime = s.clockInTime := by
  unfold clockOutPrep
  dsimp only
  split_ifs <;> simp

theorem clockOutPrep_clockInFullMs (s : WorkState) (n : Int) (str : String) :
    (clockOutPrep s n str).clockInFullMs = s.clockInFullMs := by
  unfold clockOutPrep
  dsimp only
  split_ifs <;> simp

/-- After `clockOutPrep` no meeting is marked open. -/
theorem clockOutPrep_isMeeting (s : WorkState) (n : Int) (str : String) :
    (clockOutPrep s n str).isMeeting = false := by
  unfold clockOutPrep
  dsimp only
  split_ifs with h1 h2 <;> simp_all

/-- After `clockOutPrep` no rest is marked open. -/
theorem clockOutPrep_isResting (s : WorkState) (n : Int) (str : String) :
    (clockOutPrep s n str).isResting = false := by
  unfold clockOutPrep
  dsimp only
  split_ifs with h1 h2 <;> simp_all

/-- The stop update on a task with an open entry at the end of its last
solution: the elapsed value is added to both accumulators and recorded
as the entry's duration. -/
theorem stopUpdTask_eq (nowStr : String) (e : ℚ) (t : Task) (spre : List Solution)
    (so : Solution) (hpreH : List HistoryEntry) (h : HistoryEntry)
    (hsol : t.solutions = spre ++ [so]) (hhist : so.history = hpreH ++ [h])
    (hopen : h.endStr = none) :
    stopUpdTask nowStr e t =
      { t with
        spentSeconds := t.spentSeconds + e
        solutions := spre ++
          [{ so with
             seconds := so.seconds + e
             history := hpreH ++ [{ h with endStr := some nowStr, duration := some e }] }]
        lastStartTimestamp := none } := by
  have hX : closeEntry nowStr e h = { h with endStr := some nowStr, duration := some e } := by
    unfold closeEntry
    rw [hopen]
    rfl
  unfold stopUpdTask
  simp only [hsol, hhist, updateLast_append_one, hX]

/-- Evaluation of `endMeeting` when a meeting timer is set to a truthy
(nonzero) instant. -/
theorem endMeeting_eq (s : WorkState) (nowMs : Int) (nowStr : String) (mts : Int)
    (hmts : s.lastMeetingTimestamp = some mts) (hz : mts ≠ 0) :
    endMeeting s nowMs nowStr =
      { s with
        meetingSeconds := s.meetingSeconds + elapsedSec nowMs mts
        meetingHistory :=
          updateLast (closeEntryAlways nowStr (elapsedSec nowMs mts)) s.meetingHistory
        lastMeetingTimestamp := none
        isMeeting := false } := by
  unfold endMeeting
  rw [hmts]
  dsimp only
  rw [if_neg hz]

/-- Evaluation of `endRest` when a rest timer is set to a truthy
(nonzero) instant. -/
theorem endRest_eq (s : WorkState) (nowMs : Int) (nowStr : String) (rts : Int)
    (hrts : s.lastRestTimestamp = some rts) (hz : rts ≠ 0) :
    endRest s nowMs nowStr =
      { s with
        restSeconds := s.restSeconds + elapsedSec nowMs rts
        restHistory := updateLast (closeEntryAlways nowStr (elapsedSec nowMs rts)) s.restHistory
        lastRestTimestamp := none
        isResting := false } := by
  unfold endRest
  rw [hrts]
  dsimp only
  rw [if_neg hz]

/-- Corrected C4 (counterexample side): stopping the active task at an
instant earlier than its start records a negative duration and adds a
negative amount to `spentSeconds` — not `max(0, now - start)` as the
claim states. -/
theorem c4Counterexample :
    (stopCurrentTaskTimer c4CexState 4000 "e").tasks.map Task.spentSeconds = [(-6 : ℚ)] ∧
    ((stopCurrentTaskTimer c4CexState 4000 "e").tasks.map
      (fun t => t.solutions.map (fun so => so.history.map HistoryEntry.duration))) =
      [[[some (-6 : ℚ)]]] ∧
    ((-6 : ℚ) ≠ max 0 (((4000 : ℚ) - 10000) / 1000)) := by
  have e6 : elapsedSec 4000 10000 = -6 := by
    unfold elapsedSec
    norm_num
  have h1 : (stopCurrentTaskTimer c4CexState 4000 "e").tasks =
      [stopUpdTask "e" (elapsedSec 4000 10000) c4CexTask] := rfl
  have h2 : stopUpdTask "e" (elapsedSec 4000 10000) c4CexTask =
      { c4CexTask with
        spentSeconds := c4CexTask.spentSeconds + elapsedSec 4000 10000
        solutions :=
          [{ c4CexSolu with
             seconds := c4CexSolu.seconds + elapsedSec 4000 10000
             history :=
               [{ startStr := "s", endStr := some "e", startMs := 10000
                , duration := some (elapsedSec 4000 10000) }] }]
        lastStartTimestamp := none } :=
    stopUpdTask_eq "e" (elapsedSec 4000 10000) c4CexTask [] c4CexSolu []
      ⟨"s", none, 10000, none⟩ rfl rfl rfl
  rw [h1, h2]
  refine ⟨?_, ?_, ?_⟩
  · rw [show c4CexTask.spentSeconds = 0 from rfl, e6]
    norm_num
  · rw [e6]
    rfl
  · rw [show ((4000 : ℚ) - 10000) / 1000 = -6 by norm_num,
      max_eq_left (by norm_num : ((-6) : ℚ) ≤ 0)]
    norm_num

/-- Amended C4: whenever the JS truthiness guards pass (active id and
all stored instants nonzero), each stop operation adds exactly
`(now - startInstant)/1000` — unclamped, possibly negative — to its
accumulator and records it as the closed entry's duration; at a falsy
(zero) id or instant the operations are no-ops instead. -/
theorem c4AmendedElapsed (s : WorkState) (nowMs : Int) (nowStr : String)
    (aid startTs : Int) (preT postT : List Task) (t : Task)
    (spre : List Solution) (so : Solution) (hpreH : List HistoryEntry) (h : HistoryEntry)
    (mts rts : Int) (mpre rpre : List HistoryEntry) (mh rh : HistoryEntry)
    (hact : s.activeTaskId = some aid) (haidnz : aid ≠ 0)
    (hsplit : s.tasks = preT ++ t :: postT)
    (hpre : ∀ x ∈ preT, (x.id == aid) = false)
    (hid : (t.id == aid) = true)
    (hts : t.lastStartTimestamp = some startTs) (htsnz : startTs ≠ 0)
    (hsol : t.solutions = spre ++ [so])
    (hhist : so.history = hpreH ++ [h])
    (hopen : h.endStr = none)
    (hmts : s.lastMeetingTimestamp = some mts) (hmz : mts ≠ 0)
    (hmh : s.meetingHistory = mpre ++ [mh])
    (hrts : s.lastRestTimestamp = some rts) (hrz : rts ≠ 0)
    (hrh : s.restHistory = rpre ++ [rh]) :
    (stopCurrentTaskTimer s nowMs nowStr).tasks =
      preT ++
        ({ t with
           spentSeconds := t.spentSeconds + elapsedSec nowMs startTs
           solutions := spre ++
             [{ so with
                seconds := so.seconds + elapsedSec nowMs startTs
                history := hpreH ++
                  [{ h with
                     endStr := some nowStr
                     duration := some (elapsedSec nowMs startTs) }] }]
           lastStartTimestamp := none } :: postT) ∧
    elapsedSec nowMs startTs = ((nowMs : ℚ) - (startTs : ℚ)) / 1000 ∧
    (endMeeting s nowMs nowStr).meetingSeconds = s.meetingSeconds + elapsedSec nowMs mts ∧
    (endMeeting s nowMs nowStr).meetingHistory =
      mpre ++ [{ mh with endStr := some nowStr, duration := some (elapsedSec nowMs mts) }] ∧
    (endRest s nowMs nowStr).restSeconds = s.restSeconds + elapsedSec nowMs rts ∧
    (endRest s nowMs nowStr).restHistory =
      rpre ++ [{ rh with endStr := some nowStr, duration := some (elapsedSec nowMs rts) }] := by
  refine ⟨?_, rfl, ?_, ?_, ?_, ?_⟩
  · rw [stop_tasks]
    unfold stopTasks
    rw [hact]
    dsimp only
    rw [if_neg haidnz]
    rw [hsplit, find?_split _ preT t postT hpre hid]
    dsimp only
    rw [hts]
    dsimp only
    rw [if_neg htsnz]
    rw [updateFirst_split _ _ preT t postT hpre hid,
      stopUpdTask_eq nowStr (elapsedSec nowMs startTs) t spre so hpreH h hsol hhist hopen]
  · rw [endMeeting_eq s nowMs nowStr mts hmts hmz]
  · rw [endMeeting_eq s nowMs nowStr mts hmts hmz]
    dsimp only
    rw [hmh, updateLast_append_one]
    rfl
  · rw [endRest_eq s nowMs nowStr rts hrts hrz]
  · rw [endRest_eq s nowMs nowStr rts hrts hrz]
    dsimp only
    rw [hrh, updateLast_append_one]
    rfl

/-- Witness for the amended C4 at a state with all three timers set. -/
theorem c4AmendedWitness :
    (stopCurrentTaskTimer c4AllTimersState 4000 "e").tasks =
      [{ c4Task with
         spentSeconds := 2 + elapsedSec 4000 10000
         solutions :=
           [{ c4Solu with
              seconds := 1 + elapsedSec 4000 10000
              history :=
                [{ startStr := "s", endStr := some "e", startMs := 10000
                 , duration := some (elapsedSec 4000 10000) }] }]
         lastStartTimestamp := none }] ∧
    (endMeeting c4AllTimersState 4000 "e").meetingSeconds = 3 + elapsedSec 4000 2000 ∧
    (endRest c4AllTimersState 4000 "e").restSeconds = 4 + elapsedSec 4000 3000 := by
  have hmain := c4AmendedElapsed c4AllTimersState 4000 "e" 1 10000 [] [] c4Task
    [] c4Solu [] ⟨"s", none, 10000, none⟩ 2000 3000 [] []
    ⟨"m", none, 2000, none⟩ ⟨"r", none, 3000, none⟩
    rfl (by decide) rfl (by simp) rfl rfl (by decide) rfl rfl rfl rfl (by decide) rfl rfl
    (by decide) rfl
  exact ⟨hmain.1, hmain.2.2.1, hmain.2.2.2.2.1⟩

/-- Claim C5: from a clocked-in state, `toggleClock` (clock-out) appends
exactly one `AttendanceRecord` to the attendance list, and the 表格二
report row renders the `other` column as
`max(0, totalClocked - taskTotal - meeting - rest)` via `_format_hhmm`. -/
theorem c5ClockOutAppendsOne (s : WorkState) (hin : s.isClockedIn = true)
    (nowMs : Int) (nowStr dateStr : String) (a : AttendanceRecord) :
    (∃ att, (toggleClock s nowMs nowStr dateStr).attendance = s.attendance ++ [att]) ∧
    (attRow a).otherS =
      formatHHMM (max 0 (a.totalClocked - a.taskTotal - a.meeting - a.rest)) := by
  refine ⟨?_, rfl⟩
  unfold toggleClock
  rw [if_pos hin]
  dsimp only
  exact ⟨_, by rw [clockOutPrep_attendance]⟩

/-- Witness for C5 at a concrete clocked-in state. -/
theorem c5Witness :
    (∃ att, (toggleClock c2State 500 "t" "d").attendance = c2State.attendance ++ [att]) ∧
    (attRow { date := "d", clockIn := some "a", clockOut := "b", clockInFullMs := some 0
            , clockOutFullMs := 100000, taskTotal := 10, meeting := 20, rest := 30
            , totalClocked := 100 }).otherS =
      formatHHMM (max 0 ((100 : ℚ) - 10 - 20 - 30)) :=
  c5ClockOutAppendsOne c2State rfl 500 "t" "d" _

/-- Corrected C7 (counterexample side): `confirmAddTask` performs no
numeric check on the estimate: the estimate "0" — parsable but not
positive — is accepted and the task is inserted. -/
theorem c7Counterexample :
    specEstimatePositive "0" = false ∧
    (confirmAddTask defaultState "x" "0" 42 "c").tasks.length = 1 := by
  exact ⟨by decide, rfl⟩

/-- Amended C7: `addTask` succeeds exactly when the name and the
estimate strings are both non-empty (no parsing or positivity check);
on success it prepends a task with one initial solution whose
`researchNote` is empty; on failure the state is unchanged. -/
theorem c7AmendedAddTask (s : WorkState) (name estStr : String) (nowMs : Int) (nowStr : String) :
    (name = "" ∨ estStr = "" → confirmAddTask s name estStr nowMs nowStr = s) ∧
    (name ≠ "" → estStr ≠ "" →
      (confirmAddTask s name estStr nowMs nowStr).tasks =
        { id := nowMs, createdAt := nowStr, completedAt := none, name := name
        , estTime := estStr, spentSeconds := 0, lastStartTimestamp := none
        , solutions := [{ text := "初始阶段", seconds := 0, history := [], researchNote := "" }]
        , dev := "", rem := "", completed := false, deviationLabel := ""
        , deviationClass := "" } :: s.tasks) := by
  constructor
  · intro hbad
    unfold confirmAddTask
    rw [if_pos hbad]
  · intro h1 h2
    unfold confirmAddTask
    rw [if_neg (by tauto)]

/-- Witness for the amended C7: an empty estimate is rejected without a
change; a non-empty pair is inserted at the front. -/
theorem c7AmendedWitness :
    confirmAddTask defaultState "x" "" 42 "c" = defaultState ∧
    (confirmAddTask defaultState "x" "2" 42 "c").tasks.length = 1 := by
  constructor
  · exact (c7AmendedAddTask defaultState "x" "" 42 "c").1 (Or.inr rfl)
  · rw [(c7AmendedAddTask defaultState "x" "2" 42 "c").2 (by decide) (by decide)]
    rfl

/-- Clock-out from a clocked-in state with no running task, meeting or
rest timer: the whole effect is one appended attendance record plus the
two flag changes. -/
theorem toggleClock_out_idle (w : WorkState) (hin : w.isClockedIn = true)
    (hact : w.activeTaskId = none) (hmeet : w.isMeeting = false) (hrest : w.isResting = false)
    (n2 : Int) (ts2 d2 : String) :
    toggleClock w n2 ts2 d2 =
      { w with
        attendance := w.attendance ++
          [{ date := d2, clockIn := w.clockInTime, clockOut := ts2
           , clockInFullMs := w.clockInFullMs, clockOutFullMs := n2
           , taskTotal := sumSpent w.tasks, meeting := w.meetingSeconds
           , rest := w.restSeconds
           , totalClocked := ((n2 : ℚ) - ((w.clockInFullMs.getD 0 : Int) : ℚ)) / 1000 }]
        activeTaskId := none
        isClockedIn := false } := by
  have htasks : stopTasks w n2 ts2 = w.tasks := by
    unfold stopTasks
    rw [hact]
  have hstop : stopCurrentTaskTimer w n2 ts2 = w := by
    unfold stopCurrentTaskTimer
    rw [htasks]
  have hprep : clockOutPrep w n2 ts2 = w := by
    unfold clockOutPrep
    dsimp only
    rw [hstop, if_neg (by simp [hmeet, hrest]), if_neg (by simp [hmeet])]
  unfold toggleClock
  rw [if_pos hin]
  dsimp only
  rw [hprep]

/-- Claim C10: `toggleClock` clock-in resets only the meeting/rest
accumulators and histories and leaves the task list (and its
`spentSeconds`) untouched; clocking in and straight out again therefore
produces an `AttendanceRecord` whose `taskTotal` is the full
`sumSpent` carried over from earlier sessions. -/
theorem c10TaskTotalAcrossSessions (s : WorkState)
    (hout : s.isClockedIn = false) (hact : s.activeTaskId = none)
    (hmeet : s.isMeeting = false) (hrest : s.isResting = false)
    (n1 n2 : Int) (ts1 ts2 d1 d2 : String) :
    (toggleClock s n1 ts1 d1).tasks = s.tasks ∧
    (toggleClock s n1 ts1 d1).attendance = s.attendance ∧
    (toggleClock s n1 ts1 d1).meetingSeconds = 0 ∧
    (toggleClock s n1 ts1 d1).restSeconds = 0 ∧
    (toggleClock s n1 ts1 d1).meetingHistory = ([] : List HistoryEntry) ∧
    (toggleClock s n1 ts1 d1).restHistory = ([] : List HistoryEntry) ∧
    (toggleClock (toggleClock s n1 ts1 d1) n2 ts2 d2).attendance =
      s.attendance ++ [{ date := d2, clockIn := some ts1, clockOut := ts2
                       , clockInFullMs := some n1, clockOutFullMs := n2
                       , taskTotal := sumSpent s.tasks, meeting := 0, rest := 0
                       , totalClocked := ((n2 : ℚ) - ((n1 : Int) : ℚ)) / 1000 }] := by
  have h1 : toggleClock s n1 ts1 d1 =
      { s with
        isClockedIn := true
        clockInTime := some ts1
        clockInFullMs := some n1
        meetingSeconds := 0
        restSeconds := 0
        meetingHistory := []
        restHistory := [] } := by
    unfold toggleClock
    rw [if_neg (by simp [hout])]
  refine ⟨by rw [h1], by rw [h1], by rw [h1], by rw [h1], by rw [h1], by rw [h1], ?_⟩
  rw [h1]
  rw [toggleClock_out_idle
    { s with
      isClockedIn := true
      clockInTime := some ts1
      clockInFullMs := some n1
      meetingSeconds := 0
      restSeconds := 0
      meetingHistory := []
      restHistory := [] }
    rfl hact hmeet hrest n2 ts2 d2]
  rfl

/-- Witness for C10: a second session's record carries the 60 task
seconds accumulated in the first session. -/
theorem c10Witness :
    (toggleClock (toggleClock c10WitState 100000 "t1" "d1") 101000 "t2" "d2").attendance =
      c10WitState.attendance ++
        [{ date := "d2", clockIn := some "t1", clockOut := "t2"
         , clockInFullMs := some 100000, clockOutFullMs := 101000
         , taskTotal := sumSpent c10WitState.tasks, meeting := 0, rest := 0
         , totalClocked := ((101000 : ℚ) - ((100000 : Int) : ℚ)) / 1000 }] :=
  (c10TaskTotalAcrossSessions c10WitState rfl rfl rfl rfl 100000 101000 "t1" "t2" "d1"
    "d2").2.2.2.2.2.2

/-- Inserting into a list with `orderedInsert` on the integer key puts
the new element in front of every element with the same key and behind
none of them: filtering one key class commutes with the insertion. -/
theorem filter_orderedInsert_key {α : Type _} (key : α → Int) (m : Int) (a : α) :
    ∀ l : List α, (List.orderedInsert (keyLE key) a l).filter (fun x => key x == m) =
      if key a == m then a :: l.filter (fun x => key x == m)
      else l.filter (fun x => key x == m)
  | [] => by
    rw [List.orderedInsert, List.filter_cons]
  | b :: l => by
    by_cases hab : keyLE key a b
    · rw [List.orderedInsert, if_pos hab, List.filter_cons]
    · rw [List.orderedInsert, if_neg hab, List.filter_cons,
        filter_orderedInsert_key key m a l, List.filter_cons]
      have hba : key b < key a := by
        unfold keyLE at hab
        omega
      by_cases ham : (key a == m) = true
      · have haeq : key a = m := by simpa using ham
        have hbm : (key b == m) = false := by
          simp only [beq_eq_false_iff_ne, ne_eq]
          omega
        simp [ham, hbm]
      · have ham' : (key a == m) = false := by simpa using ham
        simp [ham']

/-- A stable ascending sort leaves each key class in insertion order:
filtering a key class commutes with `insertionSort` on the key. -/
theorem filter_insertionSort_key {α : Type _} (key : α → Int) (m : Int) :
    ∀ l : List α, (List.insertionSort (keyLE key) l).filter (fun x => key x == m) =
      l.filter (fun x => key x == m)
  | [] => rfl
  | a :: l => by
    rw [List.insertionSort, filter_orderedInsert_key,
      filter_insertionSort_key key m l, List.filter_cons]

/-- Claim C9: the audit rows — clock-in marker, task-phase rows, meeting
rows, rest rows, clock-out marker — are sorted ascending by the start
instant `ms`, and rows with equal `ms` keep their insertion order; this
holds for the Python admin table and for the JS CSV export alike. -/
theorem c9AuditLogSortedStable (s : WorkState) (nowMs : Int) (m : Int) :
    List.Sorted (keyLE LogRow.ms) (pyAuditLog s nowMs) ∧
    (pyAuditLog s nowMs).filter (fun r => r.ms == m) =
      (pyAuditRaw s nowMs).filter (fun r => r.ms == m) ∧
    List.Sorted (keyLE JsLogRow.ms) (jsExportLog s nowMs) ∧
    (jsExportLog s nowMs).filter (fun r => r.ms == m) =
      (jsExportRaw s nowMs).filter (fun r => r.ms == m) :=
  ⟨List.sorted_insertionSort _ _, filter_insertionSort_key _ m _,
    List.sorted_insertionSort _ _, filter_insertionSort_key _ m _⟩

/-! Counting lemmas for open history entries. -/

theorem allClosed_nil : allClosed [] := by
  intro h hh
  cases hh

theorem histOpen_eq_zero_of_allClosed {l : List HistoryEntry} (h : allClosed l) :
    histOpen l = 0 := by
  unfold histOpen
  rw [List.countP_eq_zero]
  intro e he
  simp [h e he]

theorem histOpen_eq_one_of_openOnlyLast {l : List HistoryEntry} (h : openOnlyLast l) :
    histOpen l = 1 := by
  obtain ⟨l', e, rfl, he, hc⟩ := h
  unfold histOpen
  rw [List.countP_append]
  have h0 : List.countP entryOpen l' = 0 := histOpen_eq_zero_of_allClosed hc
  simp [h0, List.countP_cons, he]

theorem openOnlyLast_push {l : List HistoryEntry} {e : HistoryEntry}
    (hc : allClosed l) (he : entryOpen e = true) : openOnlyLast (l ++ [e]) :=
  ⟨l, e, rfl, he, hc⟩

theorem entryOpen_closeEntry (nowStr : String) (q : ℚ) (h : HistoryEntry) :
    entryOpen (closeEntry nowStr q h) = false := by
  unfold closeEntry
  by_cases hh : h.endStr.isNone = true
  · rw [if_pos hh]
    rfl
  · rw [if_neg hh]
    unfold entryOpen
    revert hh
    cases h.endStr <;> simp

theorem entryOpen_closeEntryAlways (nowStr : String) (q : ℚ) (h : HistoryEntry) :
    entryOpen (closeEntryAlways nowStr q h) = false := rfl

theorem mem_updateLast {α : Type _} (f : α → α) (y : α) :
    ∀ l : List α, y ∈ updateLast f l → y ∈ l ∨ ∃ x ∈ l, y = f x
  | [x], hy => by
    rcases List.mem_singleton.mp hy with rfl
    exact Or.inr ⟨x, List.mem_singleton_self x, rfl⟩
  | x :: x2 :: xs, hy => by
    rcases List.mem_cons.mp hy with rfl | h
    · exact Or.inl (List.mem_cons_self _ _)
    · rcases mem_updateLast f y (x2 :: xs) h with h2 | ⟨z, hz, hyz⟩
      · exact Or.inl (List.mem_cons_of_mem _ h2)
      · exact Or.inr ⟨z, List.mem_cons_of_mem _ hz, hyz⟩

theorem allClosed_updateLast_of_allClosed {l : List HistoryEntry} (f : HistoryEntry → HistoryEntry)
    (hf : ∀ h, entryOpen (f h) = false) (hl : allClosed l) : allClosed (updateLast f l) := by
  intro e he
  rcases mem_updateLast f e l he with h1 | ⟨x, _, rfl⟩
  · exact hl e h1
  · exact hf x

theorem allClosed_updateLast_of_openOnlyLast {l : List HistoryEntry}
    (f : HistoryEntry → HistoryEntry) (hf : ∀ h, entryOpen (f h) = false)
    (hl : openOnlyLast l) : allClosed (updateLast f l) := by
  obtain ⟨l', e, rfl, _, hc⟩ := hl
  rw [updateLast_append_one]
  intro x hx
  rcases List.mem_append.mp hx with h1 | h1
  · exact hc x h1
  · rcases List.mem_singleton.mp h1 with rfl
    exact hf e

/-! Task-level counting and closure lemmas. -/

theorem taskOpen_eq_zero_of_closed {t : Task} (h : taskClosed t) : taskOpen t = 0 := by
  unfold taskOpen
  rw [List.sum_eq_zero]
  intro x hx
  rcases List.mem_map.mp hx with ⟨so, hso, rfl⟩
  exact histOpen_eq_zero_of_allClosed (h so hso)

theorem taskOpen_eq_one_of_openLast {t : Task} (h : taskOpenLast t) : taskOpen t = 1 := by
  obtain ⟨pre, so, hsol, hso, hpre⟩ := h
  unfold taskOpen
  rw [hsol, List.map_append, List.sum_append]
  have h0 : (pre.map (fun so => histOpen so.history)).sum = 0 := by
    rw [List.sum_eq_zero]
    intro x hx
    rcases List.mem_map.mp hx with ⟨so', hso', rfl⟩
    exact histOpen_eq_zero_of_allClosed (hpre so' hso')
  simp [h0, histOpen_eq_one_of_openOnlyLast hso]

theorem taskClosed_stopUpdTask_of_closed (nowStr : String) (q : ℚ) {t : Task}
    (h : taskClosed t) : taskClosed (stopUpdTask nowStr q t) := by
  intro so hso
  rcases mem_updateLast _ so t.solutions hso with h1 | ⟨x, hx, rfl⟩
  · exact h so h1
  · exact allClosed_updateLast_of_allClosed _ (entryOpen_closeEntry nowStr q) (h x hx)

theorem taskClosed_stopUpdTask_of_openLast (nowStr : String) (q : ℚ) {t : Task}
    (h : taskOpenLast t) : taskClosed (stopUpdTask nowStr q t) := by
  obtain ⟨pre, so, hsol, hso, hpre⟩ := h
  intro so' hso'
  have hs : (stopUpdTask nowStr q t).solutions =
      updateLast (fun so =>
        { so with seconds := so.seconds + q
                , history := updateLast (closeEntry nowStr q) so.history }) t.solutions := rfl
  rw [hs, hsol, updateLast_append_one] at hso'
  rcases List.mem_append.mp hso' with h1 | h1
  · exact hpre so' h1
  · rcases List.mem_singleton.mp h1 with rfl
    exact allClosed_updateLast_of_openOnlyLast _ (entryOpen_closeEntry nowStr q) hso

theorem exists_append_singleton_of_ne_nil {α : Type _} {l : List α} (h : l ≠ []) :
    ∃ pre x, l = pre ++ [x] := by
  induction l with
  | nil => exact absurd rfl h
  | cons a l ih =>
    cases hl : l with
    | nil => exact ⟨[], a, rfl⟩
    | cons b l' =>
      obtain ⟨pre, x, hx⟩ := ih (by simp [hl])
      rw [hl] at hx
      exact ⟨a :: pre, x, by rw [hx]; rfl⟩

theorem taskOpenLast_startUpdTask (nowMs : Int) (nowStr : String) {t : Task}
    (hc : taskClosed t) (hne : t.solutions ≠ []) :
    taskOpenLast (startUpdTask nowMs nowStr t) := by
  obtain ⟨pre, so, hsol⟩ := exists_append_singleton_of_ne_nil hne
  refine ⟨pre, { so with history := so.history ++ [newHistoryEntry nowMs nowStr] }, ?_, ?_, ?_⟩
  · have hs : (startUpdTask nowMs nowStr t).solutions =
        updateLast (fun so =>
          { so with history := so.history ++ [newHistoryEntry nowMs nowStr] }) t.solutions := rfl
    rw [hs, hsol, updateLast_append_one]
  · refine openOnlyLast_push (hc so ?_) rfl
    rw [hsol]
    exact List.mem_append_right pre (List.mem_singleton_self so)
  · intro x hx
    refine hc x ?_
    rw [hsol]
    exact List.mem_append_left _ hx

/-! List-of-tasks counting lemmas. -/

theorem tasksOpenCount_eq_zero {ts : List Task} (h : tasksClosed ts) : tasksOpenCount ts = 0 := by
  unfold tasksOpenCount
  rw [List.sum_eq_zero]
  intro x hx
  rcases List.mem_map.mp hx with ⟨t, ht, rfl⟩
  exact taskOpen_eq_zero_of_closed (h t ht)

theorem tasksOpenCount_eq_one_of_activeSplit {aid : Int} {ts : List Task}
    (h : activeSplit aid ts) : tasksOpenCount ts = 1 := by
  obtain ⟨pre, t, post, rfl, _, _, hopen, _, hprecl, hpostcl⟩ := h
  unfold tasksOpenCount
  rw [List.map_append, List.sum_append]
  have h0 : (pre.map taskOpen).sum = 0 := by
    rw [List.sum_eq_zero]
    intro x hx
    rcases List.mem_map.mp hx with ⟨u, hu, rfl⟩
    exact taskOpen_eq_zero_of_closed (hprecl u hu)
  have h1 : (post.map taskOpen).sum = 0 := by
    rw [List.sum_eq_zero]
    intro x hx
    rcases List.mem_map.mp hx with ⟨u, hu, rfl⟩
    exact taskOpen_eq_zero_of_closed (hpostcl u hu)
  simp [h0, h1, taskOpen_eq_one_of_openLast hopen]

/-! Decomposition of a successful `find?`. -/

theorem find?_decomp {α : Type _} (p : α → Bool) :
    ∀ (l : List α) (t : α), l.find? p = some t →
      ∃ pre post, l = pre ++ t :: post ∧ (∀ x ∈ pre, p x = false) ∧ p t = true
  | a :: l, t, h => by
    by_cases ha : p a = true
    · rw [List.find?_cons_of_pos _ ha, Option.some_inj] at h
      subst h
      exact ⟨[], l, rfl, by simp, ha⟩
    · have ha' : p a = false := by simpa using ha
      rw [List.find?_cons_of_neg _ (by simp [ha'])] at h
      obtain ⟨pre, post, rfl, hpre, hp⟩ := find?_decomp p l t h
      refine ⟨a :: pre, post, rfl, ?_, hp⟩
      intro x hx
      rcases List.mem_cons.mp hx with rfl | hx'
      · exact ha'
      · exact hpre x hx'

/-! What `stopTasks` does to the closure invariant. -/

theorem ids_stopTasks (s : WorkState) (n : Int) (str : String) :
    (stopTasks s n str).map Task.id = s.tasks.map Task.id := by
  unfold stopTasks
  cases s.activeTaskId with
  | none => rfl
  | some aid =>
    dsimp only
    by_cases hz : aid = 0
    · rw [if_pos hz]
    · rw [if_neg hz]
      cases s.tasks.find? (fun t => t.id == aid) with
      | none => rfl
      | some t =>
        dsimp only
        cases t.lastStartTimestamp with
        | none => rfl
        | some ts0 =>
          dsimp only
          by_cases hz2 : ts0 = 0
          · rw [if_pos hz2]
          · rw [if_neg hz2]
            exact map_updateFirst_eq (fun tk => tk.id == aid)
              (stopUpdTask str (elapsedSec n ts0)) Task.id (fun x => rfl) s.tasks

theorem solsNE_stopTasks (s : WorkState) (n : Int) (str : String)
    (h : ∀ t ∈ s.tasks, t.solutions ≠ []) : ∀ t ∈ stopTasks s n str, t.solutions ≠ [] := by
  unfold stopTasks
  cases s.activeTaskId with
  | none => exact h
  | some aid =>
    dsimp only
    by_cases hz : aid = 0
    · rw [if_pos hz]
      exact h
    · rw [if_neg hz]
      cases s.tasks.find? (fun t => t.id == aid) with
      | none => exact h
      | some t =>
        dsimp only
        cases t.lastStartTimestamp with
        | none => exact h
        | some ts0 =>
          dsimp only
          by_cases hz2 : ts0 = 0
          · rw [if_pos hz2]
            exact h
          · rw [if_neg hz2]
            intro u hu
            rcases mem_updateFirst _ _ _ _ hu with h1 | ⟨x, hx, _, rfl⟩
            · exact h u h1
            · exact updateLast_ne_nil _ _ (h x hx)

theorem idsNZ_stopTasks (s : WorkState) (n : Int) (str : String)
    (h : ∀ t ∈ s.tasks, t.id ≠ 0) : ∀ t ∈ stopTasks s n str, t.id ≠ 0 := by
  intro u hu
  have hmem : u.id ∈ (stopTasks s n str).map Task.id := List.mem_map_of_mem _ hu
  rw [ids_stopTasks] at hmem
  rcases List.mem_map.mp hmem with ⟨x, hx, hxe⟩
  rw [← hxe]
  exact h x hx

theorem stopTasks_closed (s : WorkState) (n : Int) (str : String)
    (hgood : tasksClosed s.tasks ∨
      ∃ aid, s.activeTaskId = some aid ∧ aid ≠ 0 ∧ activeSplit aid s.tasks) :
    tasksClosed (stopTasks s n str) := by
  unfold stopTasks
  cases hA : s.activeTaskId with
  | none =>
    rcases hgood with hcl | ⟨aid, hA', _⟩
    · exact hcl
    · rw [hA] at hA'
      cases hA'
  | some aid =>
    dsimp only
    rcases hgood with hcl | ⟨aid', hA', haidnz, hsplit⟩
    · by_cases hz : aid = 0
      · rw [if_pos hz]
        exact hcl
      · rw [if_neg hz]
        cases hF : s.tasks.find? (fun t => t.id == aid) with
        | none => exact hcl
        | some t =>
          dsimp only
          cases hT : t.lastStartTimestamp with
          | none => exact hcl
          | some ts0 =>
            dsimp only
            by_cases hz2 : ts0 = 0
            · rw [if_pos hz2]
              exact hcl
            · rw [if_neg hz2]
              intro u hu
              rcases mem_updateFirst _ _ _ _ hu with h1 | ⟨x, hx, _, rfl⟩
              · exact hcl u h1
              · exact taskClosed_stopUpdTask_of_closed _ _ (hcl x hx)
    · rw [hA] at hA'
      injection hA' with hEq
      subst hEq
      rw [if_neg haidnz]
      obtain ⟨pre, t0, post, hts, hid, ⟨ts0, hts0, hts0nz⟩, hopen, hprene, hprecl, hpostcl⟩ :=
        hsplit
      have hfind : s.tasks.find? (fun t => t.id == aid) = some t0 := by
        rw [hts]
        exact find?_split _ pre t0 post
          (fun x hx => by simp [hprene x hx]) (by simp [hid])
      rw [hfind]
      dsimp only
      rw [hts0]
      dsimp only
      rw [if_neg hts0nz]
      rw [hts, updateFirst_split _ _ pre t0 post
        (fun x hx => by simp [hprene x hx]) (by simp [hid])]
      intro u hu
      rcases List.mem_append.mp hu with h1 | h1
      · exact hprecl u h1
      · rcases List.mem_cons.mp h1 with rfl | h2
        · exact taskClosed_stopUpdTask_of_openLast _ _ hopen
        · exact hpostcl u h2

/-- The stop operation leaves every task list closed, given the
invariant's task component. -/
theorem stop_state_closed (s : WorkState) (n : Int) (str : String)
    (hgood : tasksClosed s.tasks ∨
      ∃ aid, s.activeTaskId = some aid ∧ aid ≠ 0 ∧ activeSplit aid s.tasks) :
    tasksClosed (stopCurrentTaskTimer s n str).tasks :=
  stopTasks_closed s n str hgood

/-! What `startTaskTimer` does. -/

theorem startTaskTimer_eq_of_found (s : WorkState) (id nowMs : Int) (nowStr : String) (t0 : Task)
    (hfind : s.tasks.find? (fun t => t.id == id) = some t0) :
    startTaskTimer s id nowMs nowStr =
      { s with tasks := updateFirst (fun tk => tk.id == id) (startUpdTask nowMs nowStr) s.tasks
             , activeTaskId := some id } := by
  unfold startTaskTimer
  rw [hfind]

theorem startTaskTimer_eq_of_missing (s : WorkState) (id nowMs : Int) (nowStr : String)
    (hfind : s.tasks.find? (fun t => t.id == id) = none) :
    startTaskTimer s id nowMs nowStr = s := by
  unfold startTaskTimer
  rw [hfind]

theorem activeSplit_start (ts : List Task) (id nowMs : Int) (nowStr : String) (t0 : Task)
    (hnz : nowMs ≠ 0)
    (hc : tasksClosed ts) (hne : ∀ t ∈ ts, t.solutions ≠ [])
    (hfind : ts.find? (fun t => t.id == id) = some t0) :
    activeSplit id (updateFirst (fun tk => tk.id == id) (startUpdTask nowMs nowStr) ts) := by
  obtain ⟨pre, post, rfl, hpre, hp⟩ := find?_decomp _ ts t0 hfind
  rw [updateFirst_split _ _ pre t0 post hpre hp]
  refine ⟨pre, startUpdTask nowMs nowStr t0, post, rfl, ?_, ⟨nowMs, rfl, hnz⟩, ?_, ?_, ?_, ?_⟩
  · simpa using hp
  · exact taskOpenLast_startUpdTask nowMs nowStr
      (hc t0 (List.mem_append_right pre (List.mem_cons_self t0 post)))
      (hne t0 (List.mem_append_right pre (List.mem_cons_self t0 post)))
  · intro x hx
    have := hpre x hx
    simpa using this
  · intro x hx
    exact hc x (List.mem_append_left (t0 :: post) hx)
  · intro x hx
    exact hc x (List.mem_append_right pre (List.mem_cons_of_mem t0 hx))

theorem solsNE_startUpdate (ts : List Task) (id nowMs : Int) (nowStr : String)
    (h : ∀ t ∈ ts, t.solutions ≠ []) :
    ∀ t ∈ updateFirst (fun tk => tk.id == id) (startUpdTask nowMs nowStr) ts,
      t.solutions ≠ [] := by
  intro u hu
  rcases mem_updateFirst _ _ _ _ hu with h1 | ⟨x, hx, _, rfl⟩
  · exact h u h1
  · exact updateLast_ne_nil _ _ (h x hx)

theorem entryOpen_newHistoryEntry (nowMs : Int) (nowStr : String) :
    entryOpen (newHistoryEntry nowMs nowStr) = true := rfl

/-! `endMeeting` / `endRest` close their history whenever the meeting /
rest flag agrees with the timestamp and the invariant's history facts
hold. -/

theorem endMeeting_hist_closed (s : WorkState) (n : Int) (str : String)
    (hts : s.isMeeting = s.lastMeetingTimestamp.isSome)
    (hnz : s.lastMeetingTimestamp ≠ some 0)
    (ho : s.isMeeting = true → openOnlyLast s.meetingHistory)
    (hc : s.isMeeting = false → allClosed s.meetingHistory) :
    allClosed (endMeeting s n str).meetingHistory := by
  unfold endMeeting
  cases hM : s.lastMeetingTimestamp with
  | none =>
    have hm : s.isMeeting = false := by rw [hts, hM]; rfl
    exact hc hm
  | some ts =>
    have hm : s.isMeeting = true := by rw [hts, hM]; rfl
    have hz : ¬ ts = 0 := fun h => hnz (by rw [hM, h])
    dsimp only
    rw [if_neg hz]
    exact allClosed_updateLast_of_openOnlyLast _
      (entryOpen_closeEntryAlways str (elapsedSec n ts)) (ho hm)

theorem endRest_hist_closed (s : WorkState) (n : Int) (str : String)
    (hts : s.isResting = s.lastRestTimestamp.isSome)
    (hnz : s.lastRestTimestamp ≠ some 0)
    (ho : s.isResting = true → openOnlyLast s.restHistory)
    (hc : s.isResting = false → allClosed s.restHistory) :
    allClosed (endRest s n str).restHistory := by
  unfold endRest
  cases hM : s.lastRestTimestamp with
  | none =>
    have hm : s.isResting = false := by rw [hts, hM]; rfl
    exact hc hm
  | some ts =>
    have hm : s.isResting = true := by rw [hts, hM]; rfl
    have hz : ¬ ts = 0 := fun h => hnz (by rw [hM, h])
    dsimp only
    rw [if_neg hz]
    exact allClosed_updateLast_of_openOnlyLast _
      (entryOpen_closeEntryAlways str (elapsedSec n ts)) (ho hm)

/-! The three shapes `clockOutPrep` can take under the invariant's
mutual-exclusion facts. -/

theorem clockOutPrep_eq_meet (s : WorkState) (n : Int) (str : String)
    (hm : s.isMeeting = true) (hr : s.isResting = false) :
    clockOutPrep s n str = endMeeting (stopCurrentTaskTimer s n str) n str := by
  simp only [clockOutPrep, stop_isMeeting, hm, if_true, endMeeting_isResting,
    stop_isResting, hr, Bool.false_eq_true, if_false]

theorem clockOutPrep_eq_rest (s : WorkState) (n : Int) (str : String)
    (hm : s.isMeeting = false) (hr : s.isResting = true) :
    clockOutPrep s n str = endRest (stopCurrentTaskTimer s n str) n str := by
  simp only [clockOutPrep, stop_isMeeting, hm, Bool.false_eq_true, if_false,
    stop_isResting, hr, if_true]

theorem clockOutPrep_eq_idle (s : WorkState) (n : Int) (str : String)
    (hm : s.isMeeting = false) (hr : s.isResting = false) :
    clockOutPrep s n str = stopCurrentTaskTimer s n str := by
  simp only [clockOutPrep, stop_isMeeting, hm, Bool.false_eq_true, if_false,
    stop_isResting, hr]

/-! Uniqueness of the decomposition around the first match, and how
`updateFirst` distributes over an append. -/

theorem first_split_unique {α : Type _} (P : α → Prop) :
    ∀ (p1 : List α) (a : α) (q1 p2 : List α) (b : α) (q2 : List α),
      p1 ++ a :: q1 = p2 ++ b :: q2 → (∀ x ∈ p1, ¬ P x) → P a →
      (∀ x ∈ p2, ¬ P x) → P b → p1 = p2 ∧ a = b ∧ q1 = q2
  | [], a, q1, [], b, q2, h, _, _, _, _ => by
    injection h with h1 h2
    exact ⟨rfl, h1, h2⟩
  | [], a, q1, c :: p2, b, q2, h, _, ha, hp2, _ => by
    injection h with h1 _
    subst h1
    exact absurd ha (hp2 a (List.mem_cons_self _ _))
  | c :: p1, a, q1, [], b, q2, h, hp1, _, _, hb => by
    injection h with h1 _
    subst h1
    exact absurd hb (hp1 c (List.mem_cons_self _ _))
  | c :: p1, a, q1, d :: p2, b, q2, h, hp1, ha, hp2, hb => by
    injection h with h1 h2
    subst h1
    obtain ⟨e1, e2, e3⟩ := first_split_unique P p1 a q1 p2 b q2 h2
      (fun x hx => hp1 x (List.mem_cons_of_mem _ hx)) ha
      (fun x hx => hp2 x (List.mem_cons_of_mem _ hx)) hb
    exact ⟨by rw [e1], e2, e3⟩

theorem updateFirst_append_found {α : Type _} (p : α → Bool) (f : α → α) :
    ∀ (l1 l2 : List α), (∃ x ∈ l1, p x = true) →
      updateFirst p f (l1 ++ l2) = updateFirst p f l1 ++ l2
  | [], l2, hex => by
    obtain ⟨x, hx, _⟩ := hex
    cases hx
  | a :: l1, l2, hex => by
    by_cases ha : p a = true
    · rw [List.cons_append, updateFirst, if_pos ha, updateFirst, if_pos ha]
      rfl
    · have ha' : p a = false := by revert ha; cases p a <;> simp
      rw [List.cons_append, updateFirst, if_neg ha, updateFirst, if_neg ha]
      obtain ⟨x, hx, hpx⟩ := hex
      rcases List.mem_cons.mp hx with rfl | hx'
      · rw [hpx] at ha'; cases ha'
      · rw [updateFirst_append_found p f l1 l2 ⟨x, hx', hpx⟩]
        rfl

theorem updateFirst_append_not_found {α : Type _} (p : α → Bool) (f : α → α) :
    ∀ (l1 l2 : List α), (∀ x ∈ l1, p x = false) →
      updateFirst p f (l1 ++ l2) = l1 ++ updateFirst p f l2
  | [], l2, _ => rfl
  | a :: l1, l2, hall => by
    have ha : p a = false := hall a (List.mem_cons_self _ _)
    rw [List.cons_append, updateFirst, if_neg (by simp [ha])]
    rw [updateFirst_append_not_found p f l1 l2 (fun x hx => hall x (List.mem_cons_of_mem _ hx))]
    rfl

theorem opt_none_of_isSome_false {α : Type _} {o : Option α} (h : o.isSome = false) : o = none := by
  cases o with
  | none => rfl
  | some v => exact Bool.noConfusion h

/-- The invariant holds at the initial state. -/
theorem inv_default : Inv defaultState :=
  ⟨fun t ht => absurd ht (List.not_mem_nil t),
   fun t ht => absurd ht (List.not_mem_nil t),
   fun h => Bool.noConfusion h,
   fun _ => allClosed_nil,
   rfl,
   fun h => Option.noConfusion h,
   fun h => Bool.noConfusion h,
   fun _ => allClosed_nil,
   rfl,
   fun h => Option.noConfusion h,
   fun _ => ⟨rfl, rfl, rfl⟩,
   fun h => Bool.noConfusion h,
   fun h => Bool.noConfusion h,
   Or.inl (fun t ht => absurd ht (List.not_mem_nil t))⟩

/-- Under the invariant, the clock-out preparation closes both
auxiliary histories and clears both timer timestamps. -/
theorem clockOutPrep_closed (s : WorkState) (n : Int) (str : String) (hs : Inv s) :
    allClosed (clockOutPrep s n str).meetingHistory ∧
    allClosed (clockOutPrep s n str).restHistory ∧
    (clockOutPrep s n str).lastMeetingTimestamp = none ∧
    (clockOutPrep s n str).lastRestTimestamp = none := by
  by_cases hm : s.isMeeting = true
  · have hr : s.isResting = false := (hs.exclMeet hm).2
    rw [clockOutPrep_eq_meet s n str hm hr]
    refine ⟨?_, ?_, ?_, ?_⟩
    · exact endMeeting_hist_closed (stopCurrentTaskTimer s n str) n str
        hs.meetTs hs.meetTsNZ hs.meetOpen hs.meetClosed
    · rw [endMeeting_restHistory]
      exact hs.restClosed hr
    · exact endMeeting_lastMeetingTimestamp (stopCurrentTaskTimer s n str) n str hs.meetTsNZ
    · rw [endMeeting_lastRestTimestamp]
      refine opt_none_of_isSome_false (o := s.lastRestTimestamp) ?_
      rw [← hs.restTs]
      exact hr
  · have hmf : s.isMeeting = false := by revert hm; cases s.isMeeting <;> simp
    by_cases hr : s.isResting = true
    · rw [clockOutPrep_eq_rest s n str hmf hr]
      refine ⟨?_, ?_, ?_, ?_⟩
      · rw [endRest_meetingHistory]
        exact hs.meetClosed hmf
      · exact endRest_hist_closed (stopCurrentTaskTimer s n str) n str
          hs.restTs hs.restTsNZ hs.restOpen hs.restClosed
      · rw [endRest_lastMeetingTimestamp]
        refine opt_none_of_isSome_false (o := s.lastMeetingTimestamp) ?_
        rw [← hs.meetTs]
        exact hmf
      · exact endRest_lastRestTimestamp (stopCurrentTaskTimer s n str) n str hs.restTsNZ
    · have hrf : s.isResting = false := by revert hr; cases s.isResting <;> simp
      rw [clockOutPrep_eq_idle s n str hmf hrf]
      refine ⟨hs.meetClosed hmf, hs.restClosed hrf, ?_, ?_⟩
      · refine opt_none_of_isSome_false (o := s.lastMeetingTimestamp) ?_
        rw [← hs.meetTs]
        exact hmf
      · refine opt_none_of_isSome_false (o := s.lastRestTimestamp) ?_
        rw [← hs.restTs]
        exact hrf

/-- `toggleClock` preserves the invariant. -/
theorem inv_toggleClock (s : WorkState) (n : Int) (str dateStr : String) (hs : Inv s) :
    Inv (toggleClock s n str dateStr) := by
  by_cases hin : s.isClockedIn = true
  · obtain ⟨hMC, hRC, hMT, hRT⟩ := clockOutPrep_closed s n str hs
    have hPT : (clockOutPrep s n str).tasks = stopTasks s n str := clockOutPrep_tasks s n str
    unfold toggleClock
    rw [if_pos hin]
    refine ⟨?_, ?_, ?_, ?_, ?_, ?_, ?_, ?_, ?_, ?_, ?_, ?_, ?_, ?_⟩
    · intro t ht
      refine solsNE_stopTasks s n str hs.solsNE t ?_
      rw [← hPT]
      exact ht
    · intro t ht
      refine idsNZ_stopTasks s n str hs.idsNZ t ?_
      rw [← hPT]
      exact ht
    · intro h
      have hF : (clockOutPrep s n str).isMeeting = true := h
      rw [clockOutPrep_isMeeting] at hF
      exact Bool.noConfusion hF
    · exact fun _ => hMC
    · show (clockOutPrep s n str).isMeeting = (clockOutPrep s n str).lastMeetingTimestamp.isSome
      rw [clockOutPrep_isMeeting, hMT]
      rfl
    · show (clockOutPrep s n str).lastMeetingTimestamp ≠ some 0
      rw [hMT]
      exact fun h => Option.noConfusion h
    · intro h
      have hF : (clockOutPrep s n str).isResting = true := h
      rw [clockOutPrep_isResting] at hF
      exact Bool.noConfusion hF
    · exact fun _ => hRC
    · show (clockOutPrep s n str).isResting = (clockOutPrep s n str).lastRestTimestamp.isSome
      rw [clockOutPrep_isResting, hRT]
      rfl
    · show (clockOutPrep s n str).lastRestTimestamp ≠ some 0
      rw [hRT]
      exact fun h => Option.noConfusion h
    · exact fun _ => ⟨clockOutPrep_isMeeting s n str, clockOutPrep_isResting s n str, rfl⟩
    · exact fun _ => ⟨rfl, clockOutPrep_isResting s n str⟩
    · exact fun _ => rfl
    · refine Or.inl ?_
      intro t ht
      refine stopTasks_closed s n str hs.tasksGood t ?_
      rw [← hPT]
      exact ht
  · have hin' : s.isClockedIn = false := by revert hin; cases s.isClockedIn <;> simp
    obtain ⟨hm, hr, hact⟩ := hs.clockedOut hin'
    unfold toggleClock
    rw [if_neg hin]
    refine ⟨?_, ?_, ?_, ?_, ?_, ?_, ?_, ?_, ?_, ?_, ?_, ?_, ?_, ?_⟩
    · exact hs.solsNE
    · exact hs.idsNZ
    · intro h
      have hF : s.isMeeting = true := h
      rw [hm] at hF
      exact Bool.noConfusion hF
    · exact fun _ => allClosed_nil
    · show s.isMeeting = s.lastMeetingTimestamp.isSome
      exact hs.meetTs
    · exact hs.meetTsNZ
    · intro h
      have hF : s.isResting = true := h
      rw [hr] at hF
      exact Bool.noConfusion hF
    · exact fun _ => allClosed_nil
    · show s.isResting = s.lastRestTimestamp.isSome
      exact hs.restTs
    · exact hs.restTsNZ
    · intro h
      have hF : (true : Bool) = false := h
      exact Bool.noConfusion hF
    · intro h
      have hF : s.isMeeting = true := h
      rw [hm] at hF
      exact Bool.noConfusion hF
    · intro h
      have hF : s.isResting = true := h
      rw [hr] at hF
      exact Bool.noConfusion hF
    · rcases hs.tasksGood with hcl | ⟨aid, hA, _, _⟩
      · exact Or.inl hcl
      · rw [hact] at hA
        cases hA

/-- `endMeeting` preserves the invariant. -/
theorem inv_endMeeting (s : WorkState) (n : Int) (str : String) (hs : Inv s) :
    Inv (endMeeting s n str) := by
  refine ⟨?_, ?_, ?_, ?_, ?_, ?_, ?_, ?_, ?_, ?_, ?_, ?_, ?_, ?_⟩
  · intro t ht
    rw [endMeeting_tasks] at ht
    exact hs.solsNE t ht
  · intro t ht
    rw [endMeeting_tasks] at ht
    exact hs.idsNZ t ht
  · exact fun h => Bool.noConfusion ((endMeeting_isMeeting s n str).symm.trans h)
  · exact fun _ =>
      endMeeting_hist_closed s n str hs.meetTs hs.meetTsNZ hs.meetOpen hs.meetClosed
  · rw [endMeeting_isMeeting, endMeeting_lastMeetingTimestamp s n str hs.meetTsNZ]
    rfl
  · rw [endMeeting_lastMeetingTimestamp s n str hs.meetTsNZ]
    exact fun h => Option.noConfusion h
  · intro h
    rw [endMeeting_isResting] at h
    rw [endMeeting_restHistory]
    exact hs.restOpen h
  · intro h
    rw [endMeeting_isResting] at h
    rw [endMeeting_restHistory]
    exact hs.restClosed h
  · rw [endMeeting_isResting, endMeeting_lastRestTimestamp]
    exact hs.restTs
  · rw [endMeeting_lastRestTimestamp]
    exact hs.restTsNZ
  · intro h
    rw [endMeeting_isClockedIn] at h
    obtain ⟨_, h2, h3⟩ := hs.clockedOut h
    refine ⟨endMeeting_isMeeting s n str, ?_, ?_⟩
    · rw [endMeeting_isResting]
      exact h2
    · rw [endMeeting_activeTaskId]
      exact h3
  · exact fun h => Bool.noConfusion ((endMeeting_isMeeting s n str).symm.trans h)
  · intro h
    rw [endMeeting_isResting] at h
    rw [endMeeting_activeTaskId]
    exact hs.exclRest h
  · rcases hs.tasksGood with hcl | ⟨aid, hA, hanz, hsp⟩
    · refine Or.inl ?_
      rw [endMeeting_tasks]
      exact hcl
    · refine Or.inr ⟨aid, ?_, hanz, ?_⟩
      · rw [endMeeting_activeTaskId]
        exact hA
      · rw [endMeeting_tasks]
        exact hsp

/-- `endRest` preserves the invariant. -/
theorem inv_endRest (s : WorkState) (n : Int) (str : String) (hs : Inv s) :
    Inv (endRest s n str) := by
  refine ⟨?_, ?_, ?_, ?_, ?_, ?_, ?_, ?_, ?_, ?_, ?_, ?_, ?_, ?_⟩
  · intro t ht
    rw [endRest_tasks] at ht
    exact hs.solsNE t ht
  · intro t ht
    rw [endRest_tasks] at ht
    exact hs.idsNZ t ht
  · intro h
    rw [endRest_isMeeting] at h
    rw [endRest_meetingHistory]
    exact hs.meetOpen h
  · intro h
    rw [endRest_isMeeting] at h
    rw [endRest_meetingHistory]
    exact hs.meetClosed h
  · rw [endRest_isMeeting, endRest_lastMeetingTimestamp]
    exact hs.meetTs
  · rw [endRest_lastMeetingTimestamp]
    exact hs.meetTsNZ
  · exact fun h => Bool.noConfusion ((endRest_isResting s n str).symm.trans h)
  · exact fun _ => endRest_hist_closed s n str hs.restTs hs.restTsNZ hs.restOpen hs.restClosed
  · rw [endRest_isResting, endRest_lastRestTimestamp s n str hs.restTsNZ]
    rfl
  · rw [endRest_lastRestTimestamp s n str hs.restTsNZ]
    exact fun h => Option.noConfusion h
  · intro h
    rw [endRest_isClockedIn] at h
    obtain ⟨h1, _, h3⟩ := hs.clockedOut h
    refine ⟨?_, endRest_isResting s n str, ?_⟩
    · rw [endRest_isMeeting]
      exact h1
    · rw [endRest_activeTaskId]
      exact h3
  · intro h
    rw [endRest_isMeeting] at h
    obtain ⟨h1, h2⟩ := hs.exclMeet h
    refine ⟨?_, endRest_isResting s n str⟩
    rw [endRest_activeTaskId]
    exact h1
  · exact fun h => Bool.noConfusion ((endRest_isResting s n str).symm.trans h)
  · rcases hs.tasksGood with hcl | ⟨aid, hA, hanz, hsp⟩
    · refine Or.inl ?_
      rw [endRest_tasks]
      exact hcl
    · refine Or.inr ⟨aid, ?_, hanz, ?_⟩
      · rw [endRest_activeTaskId]
        exact hA
      · rw [endRest_tasks]
        exact hsp

/-! The shapes `toggleMeeting` / `toggleRest` take in each flag
configuration. -/

theorem toggleMeeting_not_clocked (s : WorkState) (n : Int) (str : String)
    (hin : s.isClockedIn = false) : toggleMeeting s n str = s := by
  unfold toggleMeeting
  rw [if_pos (by simp [hin])]

theorem toggleMeeting_end_eq (s : WorkState) (n : Int) (str : String)
    (hin : s.isClockedIn = true) (hm : s.isMeeting = true) :
    toggleMeeting s n str = endMeeting s n str := by
  unfold toggleMeeting
  rw [if_neg (by simp [hin]), if_neg (by simp [hm])]

theorem toggleMeeting_start_idle_eq (s : WorkState) (n : Int) (str : String)
    (hin : s.isClockedIn = true) (hm : s.isMeeting = false) (hr : s.isResting = false) :
    toggleMeeting s n str =
      { stopCurrentTaskTimer s n str with
        activeTaskId := none
        isMeeting := true
        lastMeetingTimestamp := some n
        meetingHistory := s.meetingHistory ++ [newHistoryEntry n str] } := by
  unfold toggleMeeting
  rw [if_neg (by simp [hin]), if_pos (by simp [hm])]
  dsimp only
  rw [if_neg (by simp [hr])]
  rfl

theorem toggleMeeting_start_rest_eq (s : WorkState) (n : Int) (str : String)
    (hin : s.isClockedIn = true) (hm : s.isMeeting = false) (hr : s.isResting = true) :
    toggleMeeting s n str =
      { endRest { stopCurrentTaskTimer s n str with activeTaskId := none } n str with
        isMeeting := true
        lastMeetingTimestamp := some n
        meetingHistory :=
          (endRest { stopCurrentTaskTimer s n str with activeTaskId := none } n str).meetingHistory
            ++ [newHistoryEntry n str] } := by
  unfold toggleMeeting
  rw [if_neg (by simp [hin]), if_pos (by simp [hm])]
  dsimp only
  rw [if_pos (by simp [hr])]

theorem toggleRest_not_clocked (s : WorkState) (n : Int) (str : String)
    (hin : s.isClockedIn = false) : toggleRest s n str = s := by
  unfold toggleRest
  rw [if_pos (by simp [hin])]

theorem toggleRest_end_eq (s : WorkState) (n : Int) (str : String)
    (hin : s.isClockedIn = true) (hr : s.isResting = true) :
    toggleRest s n str = endRest s n str := by
  unfold toggleRest
  rw [if_neg (by simp [hin]), if_neg (by simp [hr])]

theorem toggleRest_start_idle_eq (s : WorkState) (n : Int) (str : String)
    (hin : s.isClockedIn = true) (hr : s.isResting = false) (hm : s.isMeeting = false) :
    toggleRest s n str =
      { stopCurrentTaskTimer s n str with
        activeTaskId := none
        isResting := true
        lastRestTimestamp := some n
        restHistory := s.restHistory ++ [newHistoryEntry n str] } := by
  unfold toggleRest
  rw [if_neg (by simp [hin]), if_pos (by simp [hr])]
  dsimp only
  rw [if_neg (by simp [hm])]
  rfl

theorem toggleRest_start_meet_eq (s : WorkState) (n : Int) (str : String)
    (hin : s.isClockedIn = true) (hr : s.isResting = false) (hm : s.isMeeting = true) :
    toggleRest s n str =
      { endMeeting { stopCurrentTaskTimer s n str with activeTaskId := none } n str with
        isResting := true
        lastRestTimestamp := some n
        restHistory :=
          (endMeeting { stopCurrentTaskTimer s n str with activeTaskId := none } n str).restHistory
            ++ [newHistoryEntry n str] } := by
  unfold toggleRest
  rw [if_neg (by simp [hin]), if_pos (by simp [hr])]
  dsimp only
  rw [if_pos (by simp [hm])]

/-- `toggleMeeting` preserves the invariant. -/
theorem inv_toggleMeeting (s : WorkState) (n : Int) (str : String) (hs : Inv s)
    (hnz : n ≠ 0) : Inv (toggleMeeting s n str) := by
  by_cases hin : s.isClockedIn = true
  · by_cases hm : s.isMeeting = true
    · rw [toggleMeeting_end_eq s n str hin hm]
      exact inv_endMeeting s n str hs
    · have hmf : s.isMeeting = false := by revert hm; cases s.isMeeting <;> simp
      by_cases hr : s.isResting = true
      · rw [toggleMeeting_start_rest_eq s n str hin hmf hr]
        refine ⟨?_, ?_, ?_, ?_, ?_, ?_, ?_, ?_, ?_, ?_, ?_, ?_, ?_, ?_⟩
        · intro t ht
          refine solsNE_stopTasks s n str hs.solsNE t ?_
          have hT : (endRest { stopCurrentTaskTimer s n str with activeTaskId := none }
              n str).tasks = stopTasks s n str := endRest_tasks _ n str
          rw [← hT]
          exact ht
        · intro t ht
          refine idsNZ_stopTasks s n str hs.idsNZ t ?_
          have hT : (endRest { stopCurrentTaskTimer s n str with activeTaskId := none }
              n str).tasks = stopTasks s n str := endRest_tasks _ n str
          rw [← hT]
          exact ht
        · intro _
          show openOnlyLast ((endRest { stopCurrentTaskTimer s n str with activeTaskId := none }
            n str).meetingHistory ++ [newHistoryEntry n str])
          rw [endRest_meetingHistory]
          exact openOnlyLast_push (hs.meetClosed hmf) rfl
        · exact fun h => Bool.noConfusion h
        · rfl
        · intro h
          injection h with h2
          exact hnz h2
        · exact fun h => Bool.noConfusion ((endRest_isResting _ n str).symm.trans h)
        · exact fun _ => endRest_hist_closed
            { stopCurrentTaskTimer s n str with activeTaskId := none } n str
            hs.restTs hs.restTsNZ hs.restOpen hs.restClosed
        · show (endRest { stopCurrentTaskTimer s n str with activeTaskId := none }
            n str).isResting = (endRest { stopCurrentTaskTimer s n str with
              activeTaskId := none } n str).lastRestTimestamp.isSome
          rw [endRest_isResting, endRest_lastRestTimestamp
            ({ stopCurrentTaskTimer s n str with activeTaskId := none }) n str hs.restTsNZ]
          rfl
        · show (endRest { stopCurrentTaskTimer s n str with activeTaskId := none }
            n str).lastRestTimestamp ≠ some 0
          rw [endRest_lastRestTimestamp
            ({ stopCurrentTaskTimer s n str with activeTaskId := none }) n str hs.restTsNZ]
          exact fun h => Option.noConfusion h
        · intro h
          have h2 : (endRest { stopCurrentTaskTimer s n str with activeTaskId := none }
              n str).isClockedIn = false := h
          rw [endRest_isClockedIn] at h2
          exact Bool.noConfusion (hin.symm.trans h2)
        · refine fun _ => ⟨?_, endRest_isResting _ n str⟩
          have hA : (endRest { stopCurrentTaskTimer s n str with activeTaskId := none }
              n str).activeTaskId = none := endRest_activeTaskId _ n str
          exact hA
        · intro h
          exact Bool.noConfusion ((endRest_isResting _ n str).symm.trans h)
        · refine Or.inl ?_
          intro t ht
          refine stopTasks_closed s n str hs.tasksGood t ?_
          have hT : (endRest { stopCurrentTaskTimer s n str with activeTaskId := none }
              n str).tasks = stopTasks s n str := endRest_tasks _ n str
          rw [← hT]
          exact ht
      · have hrf : s.isResting = false := by revert hr; cases s.isResting <;> simp
        rw [toggleMeeting_start_idle_eq s n str hin hmf hrf]
        refine ⟨?_, ?_, ?_, ?_, ?_, ?_, ?_, ?_, ?_, ?_, ?_, ?_, ?_, ?_⟩
        · intro t ht
          exact solsNE_stopTasks s n str hs.solsNE t ht
        · intro t ht
          exact idsNZ_stopTasks s n str hs.idsNZ t ht
        · exact fun _ => openOnlyLast_push (hs.meetClosed hmf) rfl
        · exact fun h => Bool.noConfusion h
        · rfl
        · intro h
          injection h with h2
          exact hnz h2
        · exact fun h => Bool.noConfusion (hrf.symm.trans h)
        · exact fun _ => hs.restClosed hrf
        · exact hs.restTs
        · exact hs.restTsNZ
        · intro h
          exact Bool.noConfusion (hin.symm.trans h)
        · exact fun _ => ⟨rfl, hrf⟩
        · exact fun _ => rfl
        · exact Or.inl (stopTasks_closed s n str hs.tasksGood)
  · have hinf : s.isClockedIn = false := by revert hin; cases s.isClockedIn <;> simp
    rw [toggleMeeting_not_clocked s n str hinf]
    exact hs

/-- `toggleRest` preserves the invariant. -/
theorem inv_toggleRest (s : WorkState) (n : Int) (str : String) (hs : Inv s)
    (hnz : n ≠ 0) : Inv (toggleRest s n str) := by
  by_cases hin : s.isClockedIn = true
  · by_cases hr : s.isResting = true
    · rw [toggleRest_end_eq s n str hin hr]
      exact inv_endRest s n str hs
    · have hrf : s.isResting = false := by revert hr; cases s.isResting <;> simp
      by_cases hm : s.isMeeting = true
      · rw [toggleRest_start_meet_eq s n str hin hrf hm]
        refine ⟨?_, ?_, ?_, ?_, ?_, ?_, ?_, ?_, ?_, ?_, ?_, ?_, ?_, ?_⟩
        · intro t ht
          refine solsNE_stopTasks s n str hs.solsNE t ?_
          have hT : (endMeeting { stopCurrentTaskTimer s n str with activeTaskId := none }
              n str).tasks = stopTasks s n str := endMeeting_tasks _ n str
          rw [← hT]
          exact ht
        · intro t ht
          refine idsNZ_stopTasks s n str hs.idsNZ t ?_
          have hT : (endMeeting { stopCurrentTaskTimer s n str with activeTaskId := none }
              n str).tasks = stopTasks s n str := endMeeting_tasks _ n str
          rw [← hT]
          exact ht
        · exact fun h => Bool.noConfusion ((endMeeting_isMeeting _ n str).symm.trans h)
        · exact fun _ => endMeeting_hist_closed
            { stopCurrentTaskTimer s n str with activeTaskId := none } n str
            hs.meetTs hs.meetTsNZ hs.meetOpen hs.meetClosed
        · show (endMeeting { stopCurrentTaskTimer s n str with activeTaskId := none }
            n str).isMeeting = (endMeeting { stopCurrentTaskTimer s n str with
              activeTaskId := none } n str).lastMeetingTimestamp.isSome
          rw [endMeeting_isMeeting, endMeeting_lastMeetingTimestamp
            ({ stopCurrentTaskTimer s n str with activeTaskId := none }) n str hs.meetTsNZ]
          rfl
        · show (endMeeting { stopCurrentTaskTimer s n str with activeTaskId := none }
            n str).lastMeetingTimestamp ≠ some 0
          rw [endMeeting_lastMeetingTimestamp
            ({ stopCurrentTaskTimer s n str with activeTaskId := none }) n str hs.meetTsNZ]
          exact fun h => Option.noConfusion h
        · intro _
          show openOnlyLast ((endMeeting { stopCurrentTaskTimer s n str with
            activeTaskId := none } n str).restHistory ++ [newHistoryEntry n str])
          rw [endMeeting_restHistory]
          exact openOnlyLast_push (hs.restClosed hrf) rfl
        · exact fun h => Bool.noConfusion h
        · rfl
        · intro h
          injection h with h2
          exact hnz h2
        · intro h
          have h2 : (endMeeting { stopCurrentTaskTimer s n str with activeTaskId := none }
              n str).isClockedIn = false := h
          rw [endMeeting_isClockedIn] at h2
          exact Bool.noConfusion (hin.symm.trans h2)
        · intro h
          exact Bool.noConfusion ((endMeeting_isMeeting _ n str).symm.trans h)
        · refine fun _ => ?_
          have hA : (endMeeting { stopCurrentTaskTimer s n str with activeTaskId := none }
              n str).activeTaskId = none := endMeeting_activeTaskId _ n str
          exact hA
        · refine Or.inl ?_
          intro t ht
          refine stopTasks_closed s n str hs.tasksGood t ?_
          have hT : (endMeeting { stopCurrentTaskTimer s n str with activeTaskId := none }
              n str).tasks = stopTasks s n str := endMeeting_tasks _ n str
          rw [← hT]
          exact ht
      · have hmf : s.isMeeting = false := by revert hm; cases s.isMeeting <;> simp
        rw [toggleRest_start_idle_eq s n str hin hrf hmf]
        refine ⟨?_, ?_, ?_, ?_, ?_, ?_, ?_, ?_, ?_, ?_, ?_, ?_, ?_, ?_⟩
        · intro t ht
          exact solsNE_stopTasks s n str hs.solsNE t ht
        · intro t ht
          exact idsNZ_stopTasks s n str hs.idsNZ t ht
        · exact fun h => Bool.noConfusion (hmf.symm.trans h)
        · exact fun _ => hs.meetClosed hmf
        · exact hs.meetTs
        · exact hs.meetTsNZ
        · exact fun _ => openOnlyLast_push (hs.restClosed hrf) rfl
        · exact fun h => Bool.noConfusion h
        · rfl
        · intro h
          injection h with h2
          exact hnz h2
        · intro h
          exact Bool.noConfusion (hin.symm.trans h)
        · exact fun h => Bool.noConfusion (hmf.symm.trans h)
        · exact fun _ => rfl
        · exact Or.inl (stopTasks_closed s n str hs.tasksGood)
  · have hinf : s.isClockedIn = false := by revert hin; cases s.isClockedIn <;> simp
    rw [toggleRest_not_clocked s n str hinf]
    exact hs

/-- `stopCurrentTaskTimer` preserves the invariant (the task list becomes
fully closed; the `activeTaskId` may stay set, which the invariant's
left disjunct allows). -/
theorem inv_stop (s : WorkState) (n : Int) (str : String) (hs : Inv s) :
    Inv (stopCurrentTaskTimer s n str) := by
  refine ⟨?_, ?_, ?_, ?_, ?_, ?_, ?_, ?_, ?_, ?_, ?_, ?_, ?_, ?_⟩
  · intro t ht
    exact solsNE_stopTasks s n str hs.solsNE t ht
  · intro t ht
    exact idsNZ_stopTasks s n str hs.idsNZ t ht
  · exact hs.meetOpen
  · exact hs.meetClosed
  · exact hs.meetTs
  · exact hs.meetTsNZ
  · exact hs.restOpen
  · exact hs.restClosed
  · exact hs.restTs
  · exact hs.restTsNZ
  · exact hs.clockedOut
  · exact hs.exclMeet
  · exact hs.exclRest
  · exact Or.inl (stopTasks_closed s n str hs.tasksGood)

/-- `startTaskTimer` preserves the invariant when the task list is fully
closed, the user is clocked in, and no meeting or rest is open. -/
theorem inv_startTaskTimer (w : WorkState) (id n : Int) (str : String) (hw : Inv w)
    (hnz : n ≠ 0) (hcl : tasksClosed w.tasks) (hin : w.isClockedIn = true)
    (hm : w.isMeeting = false) (hr : w.isResting = false) :
    Inv (startTaskTimer w id n str) := by
  unfold startTaskTimer
  cases hF : w.tasks.find? (fun t => t.id == id) with
  | none => exact hw
  | some t0 =>
    dsimp only
    have hid0 : t0.id = id := by
      have hp := List.find?_some hF
      exact eq_of_beq hp
    have hidnz : id ≠ 0 := by
      rw [← hid0]
      exact hw.idsNZ t0 (List.mem_of_find?_eq_some hF)
    refine ⟨?_, ?_, ?_, ?_, ?_, ?_, ?_, ?_, ?_, ?_, ?_, ?_, ?_, ?_⟩
    · intro t ht
      exact solsNE_startUpdate w.tasks id n str hw.solsNE t ht
    · intro t ht
      rcases mem_updateFirst _ _ _ _ ht with h1 | ⟨x, hx, _, rfl⟩
      · exact hw.idsNZ t h1
      · show x.id ≠ 0
        exact hw.idsNZ x hx
    · exact fun h => Bool.noConfusion (hm.symm.trans h)
    · exact fun _ => hw.meetClosed hm
    · exact hw.meetTs
    · exact hw.meetTsNZ
    · exact fun h => Bool.noConfusion (hr.symm.trans h)
    · exact fun _ => hw.restClosed hr
    · exact hw.restTs
    · exact hw.restTsNZ
    · intro h
      exact Bool.noConfusion (hin.symm.trans h)
    · exact fun h => Bool.noConfusion (hm.symm.trans h)
    · exact fun h => Bool.noConfusion (hr.symm.trans h)
    · exact Or.inr ⟨id, rfl, hidnz,
        activeSplit_start w.tasks id n str t0 hnz hcl hw.solsNE hF⟩

theorem toggleTask_not_clocked (s : WorkState) (id n : Int) (str : String)
    (hin : s.isClockedIn = false) : toggleTask s id n str = s := by
  unfold toggleTask
  rw [if_pos (by simp [hin])]

/-- `toggleTask` preserves the invariant. -/
theorem inv_toggleTask (s : WorkState) (id n : Int) (str : String) (hs : Inv s)
    (hnz : n ≠ 0) : Inv (toggleTask s id n str) := by
  by_cases hin : s.isClockedIn = true
  · by_cases hm : s.isMeeting = true
    · obtain ⟨hact, hr⟩ := hs.exclMeet hm
      have hres : toggleTask s id n str = startTaskTimer (endMeeting s n str) id n str := by
        unfold toggleTask
        simp [hin, hm, hr, hact]
      rw [hres]
      refine inv_startTaskTimer (endMeeting s n str) id n str
        (inv_endMeeting s n str hs) hnz ?_ ?_ (endMeeting_isMeeting s n str) ?_
      · rw [endMeeting_tasks]
        rcases hs.tasksGood with hcl | ⟨aid, hA, _, _⟩
        · exact hcl
        · rw [hact] at hA
          cases hA
      · rw [endMeeting_isClockedIn]
        exact hin
      · rw [endMeeting_isResting]
        exact hr
    · have hmf : s.isMeeting = false := by revert hm; cases s.isMeeting <;> simp
      by_cases hr : s.isResting = true
      · have hact := hs.exclRest hr
        have hres : toggleTask s id n str = startTaskTimer (endRest s n str) id n str := by
          unfold toggleTask
          simp [hin, hmf, hr, hact]
        rw [hres]
        refine inv_startTaskTimer (endRest s n str) id n str
          (inv_endRest s n str hs) hnz ?_ ?_ ?_ (endRest_isResting s n str)
        · rw [endRest_tasks]
          rcases hs.tasksGood with hcl | ⟨aid, hA, _, _⟩
          · exact hcl
          · rw [hact] at hA
            cases hA
        · rw [endRest_isClockedIn]
          exact hin
        · rw [endRest_isMeeting]
          exact hmf
      · have hrf : s.isResting = false := by revert hr; cases s.isResting <;> simp
        by_cases hguard : (s.activeTaskId == some id) = true
        · have hres : toggleTask s id n str =
              { stopCurrentTaskTimer s n str with activeTaskId := none } := by
            unfold toggleTask
            simp [hin, hmf, hrf, hguard]
          rw [hres]
          refine ⟨?_, ?_, ?_, ?_, ?_, ?_, ?_, ?_, ?_, ?_, ?_, ?_, ?_, ?_⟩
          · intro t ht
            exact solsNE_stopTasks s n str hs.solsNE t ht
          · intro t ht
            exact idsNZ_stopTasks s n str hs.idsNZ t ht
          · exact fun h => Bool.noConfusion (hmf.symm.trans h)
          · exact fun _ => hs.meetClosed hmf
          · exact hs.meetTs
          · exact hs.meetTsNZ
          · exact fun h => Bool.noConfusion (hrf.symm.trans h)
          · exact fun _ => hs.restClosed hrf
          · exact hs.restTs
          · exact hs.restTsNZ
          · intro h
            exact Bool.noConfusion (hin.symm.trans h)
          · exact fun _ => ⟨rfl, hrf⟩
          · exact fun _ => rfl
          · exact Or.inl (stopTasks_closed s n str hs.tasksGood)
        · by_cases hsome : s.activeTaskId.isSome = true
          · have hres : toggleTask s id n str =
                startTaskTimer (stopCurrentTaskTimer s n str) id n str := by
              unfold toggleTask
              simp [hin, hmf, hrf, hguard, hsome]
            rw [hres]
            refine inv_startTaskTimer (stopCurrentTaskTimer s n str) id n str
              (inv_stop s n str hs) hnz (stopTasks_closed s n str hs.tasksGood) hin hmf hrf
          · have hres : toggleTask s id n str = startTaskTimer s id n str := by
              unfold toggleTask
              simp [hin, hmf, hrf, hguard, hsome]
            rw [hres]
            refine inv_startTaskTimer s id n str hs hnz ?_ hin hmf hrf
            rcases hs.tasksGood with hcl | ⟨aid, hA, _, _⟩
            · exact hcl
            · rw [hA] at hsome
              exact absurd rfl hsome
  · have hinf : s.isClockedIn = false := by revert hin; cases s.isClockedIn <;> simp
    rw [toggleTask_not_clocked s id n str hinf]
    exact hs

/-! Appending a solution with a closed (empty) history to a task
preserves closure and the active-split. -/

theorem taskClosed_push (tk : Task) (newSolu : Solution) (hnew : allClosed newSolu.history)
    (h : taskClosed tk) : taskClosed { tk with solutions := tk.solutions ++ [newSolu] } := by
  intro so hso
  rcases List.mem_append.mp hso with h1 | h1
  · exact h so h1
  · rcases List.mem_singleton.mp h1 with rfl
    exact hnew

theorem tasksClosed_updateFirst_push (ts : List Task) (id : Int) (newSolu : Solution)
    (hnew : allClosed newSolu.history) (h : tasksClosed ts) :
    tasksClosed (updateFirst (fun tk => tk.id == id)
      (fun tk => { tk with solutions := tk.solutions ++ [newSolu] }) ts) := by
  intro u hu
  rcases mem_updateFirst _ _ _ _ hu with h1 | ⟨x, hx, _, rfl⟩
  · exact h u h1
  · exact taskClosed_push x newSolu hnew (h x hx)

theorem solsNE_updateFirst_push (ts : List Task) (id : Int) (newSolu : Solution)
    (h : ∀ t ∈ ts, t.solutions ≠ []) :
    ∀ t ∈ updateFirst (fun tk => tk.id == id)
      (fun tk => { tk with solutions := tk.solutions ++ [newSolu] }) ts, t.solutions ≠ [] := by
  intro u hu
  rcases mem_updateFirst _ _ _ _ hu with h1 | ⟨x, hx, _, rfl⟩
  · exact h u h1
  · show x.solutions ++ [newSolu] ≠ []
    simp

theorem idsNZ_updateFirst_push (ts : List Task) (id : Int) (newSolu : Solution)
    (h : ∀ t ∈ ts, t.id ≠ 0) :
    ∀ t ∈ updateFirst (fun tk => tk.id == id)
      (fun tk => { tk with solutions := tk.solutions ++ [newSolu] }) ts, t.id ≠ 0 := by
  intro u hu
  rcases mem_updateFirst _ _ _ _ hu with h1 | ⟨x, hx, _, rfl⟩
  · exact h u h1
  · show x.id ≠ 0
    exact h x hx

theorem activeSplit_updateFirst_push (aid id : Int) (newSolu : Solution)
    (hnew : allClosed newSolu.history) (hne : id ≠ aid) {ts : List Task}
    (h : activeSplit aid ts) :
    activeSplit aid (updateFirst (fun tk => tk.id == id)
      (fun tk => { tk with solutions := tk.solutions ++ [newSolu] }) ts) := by
  obtain ⟨pre, t, post, rfl, hid, hsome, hopen, hprene, hprecl, hpostcl⟩ := h
  by_cases hex : ∃ x ∈ pre, (x.id == id) = true
  · rw [updateFirst_append_found _ _ pre (t :: post) hex]
    refine ⟨updateFirst (fun tk => tk.id == id)
      (fun tk => { tk with solutions := tk.solutions ++ [newSolu] }) pre,
      t, post, rfl, hid, hsome, hopen, ?_, ?_, hpostcl⟩
    · intro x hx
      rcases mem_updateFirst _ _ _ _ hx with h1 | ⟨y, hy, _, rfl⟩
      · exact hprene x h1
      · exact hprene y hy
    · intro x hx
      rcases mem_updateFirst _ _ _ _ hx with h1 | ⟨y, hy, _, rfl⟩
      · exact hprecl x h1
      · exact taskClosed_push y newSolu hnew (hprecl y hy)
  · have hpre' : ∀ x ∈ pre, (x.id == id) = false := by
      intro x hx
      by_cases hxx : (x.id == id) = true
      · exact absurd ⟨x, hx, hxx⟩ hex
      · revert hxx; cases (x.id == id) <;> simp
    have ht : (t.id == id) = false := by
      rw [hid]
      exact beq_eq_false_iff_ne.mpr (fun hEq => hne hEq.symm)
    have heq : updateFirst (fun tk => tk.id == id)
        (fun tk => { tk with solutions := tk.solutions ++ [newSolu] }) (pre ++ t :: post) =
        pre ++ t :: updateFirst (fun tk => tk.id == id)
          (fun tk => { tk with solutions := tk.solutions ++ [newSolu] }) post := by
      rw [updateFirst_append_not_found _ _ pre (t :: post) hpre', updateFirst,
        if_neg (by simp [ht])]
    rw [heq]
    refine ⟨pre, t, updateFirst (fun tk => tk.id == id)
      (fun tk => { tk with solutions := tk.solutions ++ [newSolu] }) post,
      rfl, hid, hsome, hopen, hprene, hprecl, ?_⟩
    intro x hx
    rcases mem_updateFirst _ _ _ _ hx with h1 | ⟨y, hy, _, rfl⟩
    · exact hpostcl x h1
    · exact taskClosed_push y newSolu hnew (hpostcl y hy)

/-- `addSolu` preserves the invariant. -/
theorem inv_addSolu (s : WorkState) (id n : Int) (str : String) (hs : Inv s)
    (hnz : n ≠ 0) : Inv (addSolu s id n str) := by
  unfold addSolu
  cases hF : s.tasks.find? (fun t => t.id == id) with
  | none => exact hs
  | some t =>
    dsimp only
    cases hL : t.solutions.getLast? with
    | none => exact hs
    | some lastSolu =>
      dsimp only
      by_cases hRN : strTrim lastSolu.researchNote = ""
      · rw [if_pos hRN]
        exact hs
      · rw [if_neg hRN]
        by_cases hRun : (s.activeTaskId == some id) = true
        · have hact : s.activeTaskId = some id := eq_of_beq hRun
          have hin : s.isClockedIn = true := by
            cases hC : s.isClockedIn with
            | false =>
              obtain ⟨_, _, hA⟩ := hs.clockedOut hC
              rw [hA] at hact
              cases hact
            | true => rfl
          have hmf : s.isMeeting = false := by
            cases hM : s.isMeeting with
            | false => rfl
            | true =>
              obtain ⟨hA, _⟩ := hs.exclMeet hM
              rw [hA] at hact
              cases hact
          have hrf : s.isResting = false := by
            cases hR : s.isResting with
            | false => rfl
            | true =>
              have hA := hs.exclRest hR
              rw [hA] at hact
              cases hact
          simp only [hRun, if_true]
          have hclosed : tasksClosed (updateFirst (fun tk => tk.id == id)
              (fun tk => { tk with solutions := tk.solutions ++
                [{ text := "新阶段" ++ toString (t.solutions.length + 1)
                 , seconds := 0, history := [], researchNote := "" }] })
              (stopTasks s n str)) :=
            tasksClosed_updateFirst_push _ _ _ allClosed_nil
              (stopTasks_closed s n str hs.tasksGood)
          refine inv_startTaskTimer _ id n str ⟨?_, ?_, hs.meetOpen, hs.meetClosed, hs.meetTs,
            hs.meetTsNZ, hs.restOpen, hs.restClosed, hs.restTs, hs.restTsNZ, hs.clockedOut,
            hs.exclMeet, hs.exclRest, Or.inl hclosed⟩ hnz hclosed hin hmf hrf
          · intro u hu
            exact solsNE_updateFirst_push _ _ _ (solsNE_stopTasks s n str hs.solsNE) u hu
          · intro u hu
            exact idsNZ_updateFirst_push _ _ _ (idsNZ_stopTasks s n str hs.idsNZ) u hu
        · simp only [hRun, if_false]
          refine ⟨?_, ?_, hs.meetOpen, hs.meetClosed, hs.meetTs, hs.meetTsNZ, hs.restOpen,
            hs.restClosed, hs.restTs, hs.restTsNZ, hs.clockedOut, hs.exclMeet, hs.exclRest,
            ?_⟩
          · intro u hu
            exact solsNE_updateFirst_push _ _ _ hs.solsNE u hu
          · intro u hu
            exact idsNZ_updateFirst_push _ _ _ hs.idsNZ u hu
          · rcases hs.tasksGood with hcl | ⟨aid, hA, hanz, hsplit⟩
            · exact Or.inl (tasksClosed_updateFirst_push _ _ _ allClosed_nil hcl)
            · refine Or.inr ⟨aid, hA, hanz, ?_⟩
              have hne : id ≠ aid := by
                intro hEq
                apply hRun
                rw [hA, hEq]
                simp
              exact activeSplit_updateFirst_push aid id _ allClosed_nil hne hsplit

theorem taskClosed_congr {t2 t : Task} (h : t2.solutions = t.solutions) (hc : taskClosed t) :
    taskClosed t2 := by
  intro so hso
  rw [h] at hso
  exact hc so hso

theorem taskOpenLast_congr {t2 t : Task} (h : t2.solutions = t.solutions)
    (ho : taskOpenLast t) : taskOpenLast t2 := by
  unfold taskOpenLast
  rw [h]
  exact ho

/-- Moving the first task with a given id to the front (as `reopen`
does, with a field update that keeps `solutions`, `lastStartTimestamp`
and `id`) preserves the active-split. -/
theorem activeSplit_reopen {aid : Int} {ts pre post : List Task} {t : Task} (id : Int)
    (hts : ts = pre ++ t :: post) (hpre : ∀ x ∈ pre, (x.id == id) = false)
    (hpt : t.id = id) (hsplit : activeSplit aid ts) (t2 : Task)
    (h2sol : t2.solutions = t.solutions) (h2ts : t2.lastStartTimestamp = t.lastStartTimestamp)
    (h2id : t2.id = t.id) :
    activeSplit aid (t2 :: (pre ++ post)) := by
  obtain ⟨pre', ta, post', hts', hid', hsome', hopen', hprene', hprecl', hpostcl'⟩ := hsplit
  have hEq : pre ++ t :: post = pre' ++ ta :: post' := hts.symm.trans hts'
  by_cases hidaid : id = aid
  · subst hidaid
    obtain ⟨rfl, rfl, rfl⟩ := first_split_unique (fun x => x.id = id) pre t post pre' ta post'
      hEq (fun x hx => beq_eq_false_iff_ne.mp (hpre x hx)) hpt
      (fun x hx => hprene' x hx) hid'
    refine ⟨[], t2, pre ++ post, rfl, by rw [h2id, hpt], by rw [h2ts]; exact hsome',
      taskOpenLast_congr h2sol hopen', ?_, ?_, ?_⟩
    · intro x hx
      cases hx
    · intro x hx
      cases hx
    · intro x hx
      rcases List.mem_append.mp hx with h1 | h1
      · exact hprecl' x h1
      · exact hpostcl' x h1
  · have htne : t.id ≠ aid := by rw [hpt]; exact hidaid
    rcases List.append_eq_append_iff.mp hEq with ⟨a', ha1, ha2⟩ | ⟨c', hc1, hc2⟩
    · cases a' with
      | nil =>
        rw [List.nil_append] at ha2
        injection ha2 with hta _
        exact absurd (hta ▸ hid') htne
      | cons b a'' =>
        injection ha2 with htb hpost
        subst htb
        subst hpost
        refine ⟨t2 :: (pre ++ a''), ta, post', ?_, hid', hsome', hopen', ?_, ?_, hpostcl'⟩
        · simp [List.append_assoc]
        · intro x hx
          rcases List.mem_cons.mp hx with rfl | h1
          · rw [h2id]
            exact htne
          · refine hprene' x ?_
            rw [ha1]
            rcases List.mem_append.mp h1 with h2 | h2
            · exact List.mem_append_left _ h2
            · exact List.mem_append_right _ (List.mem_cons_of_mem _ h2)
        · intro x hx
          rcases List.mem_cons.mp hx with rfl | h1
          · refine taskClosed_congr h2sol (hprecl' t ?_)
            rw [ha1]
            exact List.mem_append_right _ (List.mem_cons_self _ _)
          · refine hprecl' x ?_
            rw [ha1]
            rcases List.mem_append.mp h1 with h2 | h2
            · exact List.mem_append_left _ h2
            · exact List.mem_append_right _ (List.mem_cons_of_mem _ h2)
    · cases c' with
      | nil =>
        rw [List.nil_append] at hc2
        injection hc2 with hta _
        exact absurd (hta.symm ▸ hid') htne
      | cons d c'' =>
        injection hc2 with htd hpost'
        subst htd
        subst hpost'
        refine ⟨t2 :: pre', ta, c'' ++ post, ?_, hid', hsome', hopen', ?_, ?_, ?_⟩
        · rw [hc1]
          simp [List.append_assoc]
        · intro x hx
          rcases List.mem_cons.mp hx with rfl | h1
          · rw [h2id]
            exact htne
          · exact hprene' x h1
        · intro x hx
          rcases List.mem_cons.mp hx with rfl | h1
          · refine taskClosed_congr h2sol (hpostcl' t ?_)
            exact List.mem_append_right _ (List.mem_cons_self _ _)
          · exact hprecl' x h1
        · intro x hx
          rcases List.mem_append.mp hx with h1 | h1
          · exact hpostcl' x (List.mem_append_left _ h1)
          · exact hpostcl' x (List.mem_append_right _ (List.mem_cons_of_mem _ h1))

/-- `reopen` preserves the invariant. -/
theorem inv_reopen (s : WorkState) (id : Int) (hs : Inv s) : Inv (reopen s id) := by
  unfold reopen
  cases hSp : splitFirst (fun t => t.id == id) s.tasks with
  | none => exact hs
  | some trip =>
    obtain ⟨pre, t, post⟩ := trip
    dsimp only
    obtain ⟨hts, hpt, hpre⟩ := splitFirst_eq_some _ s.tasks pre t post hSp
    have hmem : t ∈ s.tasks := by
      rw [hts]
      exact List.mem_append_right pre (List.mem_cons_self t post)
    refine ⟨?_, ?_, hs.meetOpen, hs.meetClosed, hs.meetTs, hs.meetTsNZ, hs.restOpen,
      hs.restClosed, hs.restTs, hs.restTsNZ, hs.clockedOut, hs.exclMeet, hs.exclRest, ?_⟩
    · intro u hu
      rcases List.mem_cons.mp hu with rfl | h1
      · show t.solutions ≠ []
        exact hs.solsNE t hmem
      · rcases List.mem_append.mp h1 with h2 | h2
        · exact hs.solsNE u (by rw [hts]; exact List.mem_append_left _ h2)
        · exact hs.solsNE u
            (by rw [hts]; exact List.mem_append_right _ (List.mem_cons_of_mem _ h2))
    · intro u hu
      rcases List.mem_cons.mp hu with rfl | h1
      · show t.id ≠ 0
        exact hs.idsNZ t hmem
      · rcases List.mem_append.mp h1 with h2 | h2
        · exact hs.idsNZ u (by rw [hts]; exact List.mem_append_left _ h2)
        · exact hs.idsNZ u
            (by rw [hts]; exact List.mem_append_right _ (List.mem_cons_of_mem _ h2))
    · rcases hs.tasksGood with hcl | ⟨aid, hA, hanz, hsplit⟩
      · refine Or.inl ?_
        intro u hu
        rcases List.mem_cons.mp hu with rfl | h1
        · exact taskClosed_congr rfl (hcl t hmem)
        · rcases List.mem_append.mp h1 with h2 | h2
          · exact hcl u (by rw [hts]; exact List.mem_append_left _ h2)
          · exact hcl u
              (by rw [hts]; exact List.mem_append_right _ (List.mem_cons_of_mem _ h2))
      · exact Or.inr ⟨aid, hA, hanz,
          activeSplit_reopen id hts hpre (eq_of_beq hpt) hsplit _ rfl rfl rfl⟩

/-- The task list rebuilt by `completeTask`'s success path stays fully
closed when the input list was. -/
theorem tasksClosed_complete_rebuild {ts pre2 post2 : List Task} {t2 : Task} (t3 : Task)
    (hts : ts = pre2 ++ t2 :: post2) (h3 : t3.solutions = t2.solutions)
    (hcl : tasksClosed ts) : tasksClosed (pre2 ++ post2 ++ [t3]) := by
  intro u hu
  rcases List.mem_append.mp hu with h1 | h1
  · rcases List.mem_append.mp h1 with h2 | h2
    · exact hcl u (by rw [hts]; exact List.mem_append_left _ h2)
    · exact hcl u (by rw [hts]; exact List.mem_append_right _ (List.mem_cons_of_mem _ h2))
  · rcases List.mem_singleton.mp h1 with rfl
    exact taskClosed_congr h3
      (hcl t2 (by rw [hts]; exact List.mem_append_right _ (List.mem_cons_self _ _)))

theorem solsNE_complete_rebuild {ts pre2 post2 : List Task} {t2 : Task} (t3 : Task)
    (hts : ts = pre2 ++ t2 :: post2) (h3 : t3.solutions = t2.solutions)
    (hne : ∀ t ∈ ts, t.solutions ≠ []) : ∀ t ∈ pre2 ++ post2 ++ [t3], t.solutions ≠ [] := by
  intro u hu
  rcases List.mem_append.mp hu with h1 | h1
  · rcases List.mem_append.mp h1 with h2 | h2
    · exact hne u (by rw [hts]; exact List.mem_append_left _ h2)
    · exact hne u (by rw [hts]; exact List.mem_append_right _ (List.mem_cons_of_mem _ h2))
  · rcases List.mem_singleton.mp h1 with rfl
    rw [h3]
    exact hne t2 (by rw [hts]; exact List.mem_append_right _ (List.mem_cons_self _ _))

theorem idsNZ_complete_rebuild {ts pre2 post2 : List Task} {t2 : Task} (t3 : Task)
    (hts : ts = pre2 ++ t2 :: post2) (h3 : t3.id = t2.id)
    (hnz : ∀ t ∈ ts, t.id ≠ 0) : ∀ t ∈ pre2 ++ post2 ++ [t3], t.id ≠ 0 := by
  intro u hu
  rcases List.mem_append.mp hu with h1 | h1
  · rcases List.mem_append.mp h1 with h2 | h2
    · exact hnz u (by rw [hts]; exact List.mem_append_left _ h2)
    · exact hnz u (by rw [hts]; exact List.mem_append_right _ (List.mem_cons_of_mem _ h2))
  · rcases List.mem_singleton.mp h1 with rfl
    rw [h3]
    exact hnz t2 (by rw [hts]; exact List.mem_append_right _ (List.mem_cons_self _ _))

/-- `completeTask` preserves the invariant. -/
theorem inv_completeTask (estParse : String → Option ℚ) (s : WorkState) (id n : Int)
    (str dstr : String) (hs : Inv s) :
    Inv (completeTask estParse s id n str dstr).state := by
  unfold completeTask
  cases hSp : splitFirst (fun t => t.id == id) s.tasks with
  | none => exact hs
  | some trip =>
    obtain ⟨pre, t, post⟩ := trip
    dsimp only
    by_cases hDev : strTrim t.dev = ""
    · rw [if_pos hDev]
      exact hs
    · rw [if_neg hDev]
      cases hL : t.solutions.getLast? with
      | none => exact hs
      | some lastSolu =>
        dsimp only
        by_cases hRN : strTrim lastSolu.researchNote = ""
        · rw [if_pos hRN]
          exact hs
        · rw [if_neg hRN]
          have hcl2 : tasksClosed (stopCurrentTaskTimer s n str).tasks :=
            stopTasks_closed s n str hs.tasksGood
          have hne2 : ∀ u ∈ (stopCurrentTaskTimer s n str).tasks, u.solutions ≠ [] :=
            solsNE_stopTasks s n str hs.solsNE
          have hid2 : ∀ u ∈ (stopCurrentTaskTimer s n str).tasks, u.id ≠ 0 :=
            idsNZ_stopTasks s n str hs.idsNZ
          by_cases hG : ((stopCurrentTaskTimer s n str).activeTaskId == some id) = true
          · rw [if_pos hG]
            dsimp only
            cases hSp2 : splitFirst (fun tk => tk.id == id)
                (stopCurrentTaskTimer s n str).tasks with
            | none =>
              dsimp only
              refine ⟨hne2, hid2, hs.meetOpen, hs.meetClosed, hs.meetTs, hs.meetTsNZ,
                hs.restOpen, hs.restClosed, hs.restTs, hs.restTsNZ, ?_, ?_, ?_, Or.inl hcl2⟩
              · intro h
                obtain ⟨h1, h2, _⟩ := hs.clockedOut h
                exact ⟨h1, h2, rfl⟩
              · intro h
                exact ⟨rfl, (hs.exclMeet h).2⟩
              · exact fun _ => rfl
            | some trip2 =>
              obtain ⟨pre2, t2, post2⟩ := trip2
              dsimp only
              obtain ⟨hts2, _, _⟩ := splitFirst_eq_some _ _ pre2 t2 post2 hSp2
              refine ⟨solsNE_complete_rebuild _ hts2 rfl hne2,
                idsNZ_complete_rebuild _ hts2 rfl hid2, hs.meetOpen, hs.meetClosed,
                hs.meetTs, hs.meetTsNZ, hs.restOpen, hs.restClosed, hs.restTs, hs.restTsNZ,
                ?_, ?_, ?_, Or.inl (tasksClosed_complete_rebuild _ hts2 rfl hcl2)⟩
              · intro h
                obtain ⟨h1, h2, _⟩ := hs.clockedOut h
                exact ⟨h1, h2, rfl⟩
              · intro h
                exact ⟨rfl, (hs.exclMeet h).2⟩
              · exact fun _ => rfl
          · rw [if_neg hG]
            cases hSp2 : splitFirst (fun tk => tk.id == id)
                (stopCurrentTaskTimer s n str).tasks with
            | none =>
              dsimp only
              refine ⟨hne2, hid2, hs.meetOpen, hs.meetClosed, hs.meetTs, hs.meetTsNZ,
                hs.restOpen, hs.restClosed, hs.restTs, hs.restTsNZ, hs.clockedOut,
                hs.exclMeet, hs.exclRest, Or.inl hcl2⟩
            | some trip2 =>
              obtain ⟨pre2, t2, post2⟩ := trip2
              dsimp only
              obtain ⟨hts2, _, _⟩ := splitFirst_eq_some _ _ pre2 t2 post2 hSp2
              refine ⟨solsNE_complete_rebuild _ hts2 rfl hne2,
                idsNZ_complete_rebuild _ hts2 rfl hid2, hs.meetOpen, hs.meetClosed,
                hs.meetTs, hs.meetTsNZ, hs.restOpen, hs.restClosed, hs.restTs, hs.restTsNZ,
                hs.clockedOut, hs.exclMeet, hs.exclRest,
                Or.inl (tasksClosed_complete_rebuild _ hts2 rfl hcl2)⟩

/-- `confirmAddTask` preserves the invariant whenever the generated id
is fresh. -/
theorem inv_confirmAddTask (s : WorkState) (name estStr : String) (n : Int) (str : String)
    (hs : Inv s) (hfresh : n ∉ s.tasks.map Task.id) (hnz : n ≠ 0) :
    Inv (confirmAddTask s name estStr n str) := by
  unfold confirmAddTask
  by_cases hempty : name = "" ∨ estStr = ""
  · rw [if_pos hempty]
    exact hs
  · rw [if_neg hempty]
    dsimp only
    refine ⟨?_, ?_, hs.meetOpen, hs.meetClosed, hs.meetTs, hs.meetTsNZ, hs.restOpen,
      hs.restClosed, hs.restTs, hs.restTsNZ, hs.clockedOut, hs.exclMeet, hs.exclRest, ?_⟩
    · intro u hu
      rcases List.mem_cons.mp hu with rfl | h1
      · simp
      · exact hs.solsNE u h1
    · intro u hu
      rcases List.mem_cons.mp hu with rfl | h1
      · show n ≠ 0
        exact hnz
      · exact hs.idsNZ u h1
    · rcases hs.tasksGood with hcl | ⟨aid, hA, hanz, hsplit⟩
      · refine Or.inl ?_
        intro u hu
        rcases List.mem_cons.mp hu with rfl | h1
        · intro so hso
          rcases List.mem_singleton.mp hso with rfl
          exact allClosed_nil
        · exact hcl u h1
      · refine Or.inr ⟨aid, hA, hanz, ?_⟩
        obtain ⟨pre, ta, post, hts, hid, hsome, hopen, hprene, hprecl, hpostcl⟩ := hsplit
        have haidmem : aid ∈ s.tasks.map Task.id := by
          rw [List.mem_map]
          exact ⟨ta, by rw [hts]; exact List.mem_append_right _ (List.mem_cons_self _ _), hid⟩
        refine ⟨{ id := n, createdAt := str, completedAt := none, name := name
                , estTime := estStr, spentSeconds := 0, lastStartTimestamp := none
                , solutions := [{ text := "初始阶段", seconds := 0, history := []
                                , researchNote := "" }]
                , dev := "", rem := "", completed := false, deviationLabel := ""
                , deviationClass := "" } :: pre, ta, post,
          by rw [hts]; rfl, hid, hsome, hopen, ?_, ?_, hpostcl⟩
        · intro x hx
          rcases List.mem_cons.mp hx with rfl | h1
          · show n ≠ aid
            intro hEq
            exact hfresh (hEq ▸ haidmem)
          · exact hprene x h1
        · intro x hx
          rcases List.mem_cons.mp hx with rfl | h1
          · intro so hso
            rcases List.mem_singleton.mp hso with rfl
            exact allClosed_nil
          · exact hprecl x h1

/-- Every fresh-id operation preserves the invariant. -/
theorem inv_stepFresh {s s' : WorkState} (hs : Inv s) (hstep : StepFresh s s') : Inv s' := by
  cases hstep with
  | clockOp n str dstr => exact inv_toggleClock s n str dstr hs
  | meetOp n str hnz => exact inv_toggleMeeting s n str hs hnz
  | restOp n str hnz => exact inv_toggleRest s n str hs hnz
  | taskOp id n str hnz => exact inv_toggleTask s id n str hs hnz
  | soluOp id n str hnz => exact inv_addSolu s id n str hs hnz
  | completeOp estParse id n str dstr => exact inv_completeTask estParse s id n str dstr hs
  | reopenOp id => exact inv_reopen s id hs
  | addOp name estStr n str hfresh hnz =>
      exact inv_confirmAddTask s name estStr n str hs hfresh hnz

/-- The invariant holds in every state reachable with fresh task ids. -/
theorem reachableFresh_inv {s : WorkState} (h : ReachableFresh s) : Inv s := by
  induction h with
  | init => exact inv_default
  | step _ hstep ih => exact inv_stepFresh ih hstep

/-- The invariant bounds the number of open history entries: at most one
overall, and none when clocked out. -/
theorem inv_totalOpen {s : WorkState} (hs : Inv s) :
    totalOpen s ≤ 1 ∧ (s.isClockedIn = false → totalOpen s = 0) := by
  by_cases hm : s.isMeeting = true
  · obtain ⟨hA, hr⟩ := hs.exclMeet hm
    have ht : tasksOpenCount s.tasks = 0 := by
      rcases hs.tasksGood with hcl | ⟨aid, hA', _, _⟩
      · exact tasksOpenCount_eq_zero hcl
      · rw [hA] at hA'
        cases hA'
    have hmo : histOpen s.meetingHistory = 1 := histOpen_eq_one_of_openOnlyLast (hs.meetOpen hm)
    have hro : histOpen s.restHistory = 0 := histOpen_eq_zero_of_allClosed (hs.restClosed hr)
    constructor
    · unfold totalOpen
      rw [ht, hmo, hro]
    · intro h
      obtain ⟨h1, _, _⟩ := hs.clockedOut h
      rw [h1] at hm
      cases hm
  · have hmf : s.isMeeting = false := by revert hm; cases s.isMeeting <;> simp
    have hmo : histOpen s.meetingHistory = 0 := histOpen_eq_zero_of_allClosed (hs.meetClosed hmf)
    by_cases hr : s.isResting = true
    · have hA := hs.exclRest hr
      have ht : tasksOpenCount s.tasks = 0 := by
        rcases hs.tasksGood with hcl | ⟨aid, hA', _⟩
        · exact tasksOpenCount_eq_zero hcl
        · rw [hA] at hA'
          cases hA'
      have hro : histOpen s.restHistory = 1 := histOpen_eq_one_of_openOnlyLast (hs.restOpen hr)
      constructor
      · unfold totalOpen
        rw [ht, hmo, hro]
      · intro h
        obtain ⟨_, h2, _⟩ := hs.clockedOut h
        rw [h2] at hr
        cases hr
    · have hrf : s.isResting = false := by revert hr; cases s.isResting <;> simp
      have hro : histOpen s.restHistory = 0 := histOpen_eq_zero_of_allClosed (hs.restClosed hrf)
      constructor
      · have ht1 : tasksOpenCount s.tasks ≤ 1 := by
          rcases hs.tasksGood with hcl | ⟨_, _, _, hsp⟩
          · rw [tasksOpenCount_eq_zero hcl]
            exact Nat.zero_le 1
          · rw [tasksOpenCount_eq_one_of_activeSplit hsp]
        unfold totalOpen
        rw [hmo, hro]
        simpa using ht1
      · intro h
        obtain ⟨_, _, hA⟩ := hs.clockedOut h
        have ht0 : tasksOpenCount s.tasks = 0 := by
          rcases hs.tasksGood with hcl | ⟨aid, hA', _, _⟩
          · exact tasksOpenCount_eq_zero hcl
          · rw [hA] at hA'
            cases hA'
        unfold totalOpen
        rw [ht0, hmo, hro]

/-- C1 (counterexample): the claimed invariant over `Reachable` (all
operation sequences, arbitrary `Date.now()` readings) is false.  Adding
two tasks in the same millisecond gives them the same id; stopping then
acts on the wrong (idle) copy, so a second open entry appears while the
first stays open: a reachable clocked-in state with two open entries. -/
theorem c1Counterexample :
    Reachable c1CexState ∧ c1CexState.isClockedIn = true ∧ 1 < totalOpen c1CexState := by
  refine ⟨?_, by decide, by decide⟩
  exact Reachable.step
    (Reachable.step
      (Reachable.step
        (Reachable.step
          (Reachable.step Reachable.init (Step.clockOp defaultState 1 "09:00:00" "2024/1/1"))
          (Step.addOp _ "a" "1" 5 "09:00:01"))
        (Step.taskOp _ 5 6 "09:00:02"))
      (Step.addOp _ "b" "1" 5 "09:00:03"))
    (Step.meetOp _ 7 "09:00:04")

/-- C1 (amended): for every state reachable from the default state when
every added task draws a fresh id and every `Date.now()` reading stored
as a task id or timer start instant is nonzero (so the JS truthiness
guards see it as set), the number of open `HistoryEntry` objects across
task-phase, meeting and rest histories is at most 1 when clocked in and
exactly 0 when clocked out. -/
theorem c1AmendedOpenEntryInvariant (s : WorkState) (h : ReachableFresh s) :
    (s.isClockedIn = true → totalOpen s ≤ 1) ∧ (s.isClockedIn = false → totalOpen s = 0) := by
  obtain ⟨h1, h2⟩ := inv_totalOpen (reachableFresh_inv h)
  exact ⟨fun _ => h1, h2⟩

/-- Witness for the amended C1 at a concrete two-step trace (clock in,
then start a meeting): the trace is `ReachableFresh` and its one open
meeting entry satisfies the bound. -/
theorem c1AmendedWitness :
    (toggleMeeting (toggleClock defaultState 1 "09:00:00" "2024/1/1") 2 "09:00:01").isClockedIn
        = true ∧
    totalOpen (toggleMeeting (toggleClock defaultState 1 "09:00:00" "2024/1/1") 2 "09:00:01")
        ≤ 1 :=
  ⟨by decide,
   (c1AmendedOpenEntryInvariant _
     (ReachableFresh.step
       (ReachableFresh.step ReachableFresh.init
         (StepFresh.clockOp defaultState 1 "09:00:00" "2024/1/1"))
       (StepFresh.meetOp _ 2 "09:00:01" (by decide)))).1 (by decide)⟩

/-- C8 (counterexample): completing task 1 while task 2 is active stops
task 2's timer, not task 1's: task 2's `spentSeconds` grows by
`(now - start)/1000` and its `lastStartTimestamp` is cleared, although
the claim says every task other than the completed one is unchanged. -/
theorem c8Counterexample :
    (completeTask parseDecimal c8CexState 1 5100 "e" "d").outcome
        = CompleteOutcome.completed ∧
    (completeTask parseDecimal c8CexState 1 5100 "e" "d").state.tasks.map
        (fun t => (t.id, t.spentSeconds, t.lastStartTimestamp))
      = [(2, 7 + elapsedSec 5100 100, none), (1, 0, none)] ∧
    (7 : ℚ) + elapsedSec 5100 100 ≠ c8Task2.spentSeconds := by
  refine ⟨rfl, rfl, ?_⟩
  show (7 : ℚ) + elapsedSec 5100 100 ≠ (7 : ℚ)
  unfold elapsedSec
  norm_num

/-- C8 (amended): when `completeTask id` passes validation while a
DIFFERENT task `aid` is active, the call stops the ACTIVE task's timer
(the task list first becomes `stopTasks`, which mutates only the active
task when `aid` and its start instant are truthy - nonzero - and is a
no-op otherwise), then only marks the found task completed (completed
flag, date, deviation fields) and moves it to the end; `activeTaskId`
keeps pointing at the active task and no other state component
changes. -/
theorem c8AmendedFrame (estParse : String → Option ℚ) (s : WorkState) (id aid n : Int)
    (str dstr : String) (pre : List Task) (t : Task) (post : List Task)
    (hsp : splitFirst (fun tk => tk.id == id) s.tasks = some (pre, t, post))
    (hdev : ¬ strTrim t.dev = "") (lastSolu : Solution)
    (hlast : t.solutions.getLast? = some lastSolu)
    (hrn : ¬ strTrim lastSolu.researchNote = "")
    (hact : s.activeTaskId = some aid) (hne : aid ≠ id)
    (pre2 : List Task) (t2 : Task) (post2 : List Task)
    (hsp2 : splitFirst (fun tk => tk.id == id) (stopTasks s n str) = some (pre2, t2, post2)) :
    (completeTask estParse s id n str dstr).outcome = CompleteOutcome.completed ∧
    (completeTask estParse s id n str dstr).state.activeTaskId = some aid ∧
    (completeTask estParse s id n str dstr).state.tasks =
      pre2 ++ post2 ++
        [{ t2 with completed := true
                 , completedAt := some dstr
                 , deviationLabel := (deviationOf estParse t2.estTime t2.spentSeconds).1
                 , deviationClass := (deviationOf estParse t2.estTime t2.spentSeconds).2 }] ∧
    (completeTask estParse s id n str dstr).state.meetingHistory = s.meetingHistory ∧
    (completeTask estParse s id n str dstr).state.restHistory = s.restHistory ∧
    (completeTask estParse s id n str dstr).state.meetingSeconds = s.meetingSeconds ∧
    (completeTask estParse s id n str dstr).state.restSeconds = s.restSeconds ∧
    (completeTask estParse s id n str dstr).state.attendance = s.attendance ∧
    (completeTask estParse s id n str dstr).state.isClockedIn = s.isClockedIn := by
  unfold completeTask
  rw [hsp]
  dsimp only
  rw [if_neg hdev, hlast]
  dsimp only
  rw [if_neg hrn, if_neg (by simp [hact, hne])]
  have hsp2' : splitFirst (fun tk => tk.id == id) (stopCurrentTaskTimer s n str).tasks
      = some (pre2, t2, post2) := hsp2
  rw [hsp2']
  dsimp only
  exact ⟨rfl, hact, rfl, rfl, rfl, rfl, rfl, rfl, rfl⟩

/-- Witness for the amended C8 at the concrete state: completing task 1
at instant 5100 while task 2 (started at 100) is active succeeds, keeps
`activeTaskId = some 2`, and rebuilds the task list from the stopped
list. -/
theorem c8AmendedWitness :
    (completeTask parseDecimal c8CexState 1 5100 "e" "d").outcome
        = CompleteOutcome.completed ∧
    (completeTask parseDecimal c8CexState 1 5100 "e" "d").state.activeTaskId = some 2 ∧
    (completeTask parseDecimal c8CexState 1 5100 "e" "d").state.tasks =
      [stopUpdTask "e" (elapsedSec 5100 100) c8Task2] ++
        [{ c8Task1 with completed := true
                      , completedAt := some "d"
                      , deviationLabel :=
                          (deviationOf parseDecimal c8Task1.estTime c8Task1.spentSeconds).1
                      , deviationClass :=
                          (deviationOf parseDecimal c8Task1.estTime c8Task1.spentSeconds).2 }] := by
  obtain ⟨h1, h2, h3, _⟩ := c8AmendedFrame parseDecimal c8CexState 1 2 5100 "e" "d"
    [] c8Task1 [c8Task2] rfl (by decide) _ rfl (by decide) rfl (by decide)
    [] c8Task1 [stopUpdTask "e" (elapsedSec 5100 100) c8Task2] rfl
  exact ⟨h1, h2, h3⟩

end WR
